import Mathlib

/-!
Verification of `airflow/providers/apache/beam/operators/beam.py`.

The module's option-merging and launch logic is embedded shallowly:
Python dictionaries are ordered association lists of `String × PyVal`,
and, because the operators rely on aliasing (shallow `dict.copy`,
`copy.deepcopy`, in-place `setdefault(...).update(...)`), dictionary
objects live in an explicit heap addressed by `Nat`; a nested mapping
value is a `PyVal.ref` to another heap object.  The operators'
`execute`/`on_kill` methods are embedded as functions producing a trace
of external calls (remote queries, pipeline launches, waits, cancels,
temporary-file events), with oracles standing for the remote service's
answers.
-/

set_option autoImplicit false

namespace BeamOp

/-- A Python value as used in the operators' pipeline-option dictionaries:
string, boolean, `None`, list of strings, or a reference to a (nested)
dictionary object in the heap. -/
inductive PyVal where
  | str (s : String)
  | pybool (b : Bool)
  | pynone
  | strlist (xs : List String)
  | ref (a : Nat)
deriving Repr, DecidableEq

/-- A Python dictionary body: insertion-ordered key/value pairs. -/
abbrev Dict := List (String × PyVal)

/-- `d[k] = v` in Python: overwrite in place when the key is present
(keeping its position), otherwise append. -/
def dictSet : Dict → String → PyVal → Dict
  | [], k, v => [(k, v)]
  | (k1, v1) :: rest, k, v =>
    if k1 = k then (k, v) :: rest else (k1, v1) :: dictSet rest k v

/-- `d.get(k)`: first (hence, for a real dict, only) binding of `k`. -/
def dictGet : Dict → String → Option PyVal
  | [], _ => none
  | (k1, v1) :: rest, k => if k1 = k then some v1 else dictGet rest k

/-- `d.update(src)`: iterate `src` in order and assign each pair into `d`. -/
def dictUpdate (d : Dict) (src : Dict) : Dict :=
  src.foldl (fun acc kv => dictSet acc kv.1 kv.2) d

/-- The keys of a dictionary body, in order. -/
def dictKeys (d : Dict) : List String := d.map Prod.fst

/-- Python truthiness of a dictionary: non-empty. -/
def dictTruthy (d : Dict) : Bool := !d.isEmpty

/-- `str.lower()`: lowercase character by character. -/
def strLower (s : String) : String := String.mk (s.data.map Char.toLower)

/-- `str.startswith(pre)`. -/
def strStartsWith (s pre : String) : Bool := List.isPrefixOf pre.data s.data

/-- Python truthiness of an optional string (`None` and `""` are falsy). -/
def optTruthy : Option String → Bool
  | none => false
  | some s => !(s = "")

/-- The heap of dictionary objects; address `a` is an index into `objs`. -/
structure Heap where
  objs : List Dict
deriving Repr, DecidableEq

/-- Read the dictionary object at address `a` (empty when dangling). -/
def Heap.get (h : Heap) (a : Nat) : Dict := h.objs.getD a []

/-- Overwrite the dictionary object at address `a`. -/
def Heap.put (h : Heap) (a : Nat) (d : Dict) : Heap :=
  ⟨h.objs.set a d⟩

/-- Allocate a fresh dictionary object; returns its address. -/
def Heap.alloc (h : Heap) (d : Dict) : Heap × Nat :=
  (⟨h.objs ++ [d]⟩, h.objs.length)

/-- `copy.deepcopy` of one value: a `ref` is cloned recursively into a
fresh object (the referenced dictionary's entries are copied in order,
threading the heap), other values are immutable and returned as-is.
Fuel bounds the reference-chasing depth; `none` means the fuel ran out. -/
def deepcopyVal : Nat → Heap → PyVal → Option (Heap × PyVal)
  | 0, _, _ => none
  | Nat.succ fuel, h, v =>
    match v with
    | PyVal.ref a =>
      match (h.get a).foldlM
          (fun acc kv => (deepcopyVal fuel acc.1 kv.2).map
            (fun p => (p.1, acc.2 ++ [(kv.1, p.2)]))) (h, ([] : Dict)) with
      | none => none
      | some (h1, d1) =>
        some ((h1.alloc d1).1, PyVal.ref (h1.alloc d1).2)
    | v => some (h, v)

/-- `copy.deepcopy` of a dictionary body, entry by entry. -/
def deepcopyDict (fuel : Nat) (h : Heap) (d : Dict) : Option (Heap × Dict) :=
  d.foldlM
    (fun acc kv => (deepcopyVal fuel acc.1 kv.2).map
      (fun p => (p.1, acc.2 ++ [(kv.1, p.2)]))) (h, ([] : Dict))

/-- `d.setdefault(k, {}).update(extra)` where `d` is the object at
address `a`: if `k` is absent, bind it to a freshly allocated empty
dictionary; then update the dictionary object `k` refers to, in place,
with `extra`.  Returns `none` when `k` is bound to a non-dictionary
value (Python would raise there). -/
def setdefaultDictUpdate (h : Heap) (a : Nat) (k : String) (extra : Dict) :
    Option Heap :=
  match dictGet (h.get a) k with
  | some (PyVal.ref b) =>
    some (h.put b (dictUpdate (h.get b) extra))
  | some _ => none
  | none =>
    let h1 := (h.alloc []).1
    let b := (h.alloc []).2
    let h2 := h1.put a (dictSet (h1.get a) k (PyVal.ref b))
    some (h2.put b (dictUpdate (h2.get b) extra))

/-- Duplicate-job policy
(`airflow.providers.google.cloud.operators.dataflow.CheckJobRunning`). -/
inductive CheckJobRunning where
  | IgnoreJob
  | FinishIfRunning
  | WaitForRun
deriving Repr, DecidableEq

/-- The `impersonation_chain` configuration field: `None`, a single
account string, or a list of accounts. -/
inductive Chain where
  | cnone
  | single (s : String)
  | accounts (xs : List String)
deriving Repr, DecidableEq

/-- Python truthiness of an `impersonation_chain` value. -/
def Chain.truthy : Chain → Bool
  | Chain.cnone => false
  | Chain.single s => !(s = "")
  | Chain.accounts xs => !xs.isEmpty

/-- `",".join(xs)`. -/
def joinComma : List String → String
  | [] => ""
  | [x] => x
  | x :: xs => x ++ "," ++ joinComma xs

/-- The value `__get_dataflow_pipeline_options` stores for
`impersonateServiceAccount`: the string itself, or `",".join(chain)`
when the chain is a list. -/
def Chain.joined : Chain → String
  | Chain.cnone => ""
  | Chain.single s => s
  | Chain.accounts xs => joinComma xs

/-- The subset of `DataflowConfiguration` fields the operators read. -/
structure DataflowConfiguration where
  job_name : String
  append_job_name : Bool
  project_id : Option String
  location : Option String
  service_account : Option String
  impersonation_chain : Chain
  check_if_running : CheckJobRunning
  multiple_jobs : Bool
deriving Repr, DecidableEq

/-- `"v" + version.replace(".", "-").replace("+", "-")`: the value of the
`airflow-version` label injected into the `labels` option. -/
def airflowVersionLabel (version : String) : String :=
  "v" ++ String.mk (version.data.map (fun c => if c = '.' ∨ c = '+' then '-' else c))

/-- `None` becomes Python `None`, a string stays a string (used for the
`project` and `region` option values). -/
def optionStrVal : Option String → PyVal
  | none => PyVal.pynone
  | some s => PyVal.str s

/-- Modelled from the spec: the fixed managed-remote runner identifier
(`BeamRunnerType.DataflowRunner`, defined in the Beam hook module, which
is not part of the sources here); the execution target is chosen by a
case-insensitive match of the user's runner name against it. -/
def dataflowRunnerName : String := "DataflowRunner"

/-- Modelled from the spec: `DataflowHook.build_dataflow_job_name` (Job
Identity Builder, defined in the google provider, not part of the
sources here).  With `appendSuffix = true` a short randomized token —
supplied here as the `suffix` argument, since it is nondeterministic —
is appended to guarantee uniqueness; with `appendSuffix = false` the
base is returned verbatim. -/
def build_dataflow_job_name (base : String) (appendSuffix : Bool)
    (suffix : String) : String :=
  if appendSuffix then base ++ "-" ++ suffix else base

/-- Helper for `convert_camel_to_snake`: lowercase every character and
put an underscore in front of each maximal run of uppercase characters,
except a run starting the string; `prevUpper` records whether the
previous character was uppercase (initially true, so no leading
underscore is produced). -/
def snakeChars : Bool → List Char → List Char
  | _, [] => []
  | prevUpper, c :: cs =>
    if c.isUpper then
      (if prevUpper then [c.toLower] else ['_', c.toLower]) ++ snakeChars true cs
    else
      c.toLower :: snakeChars false cs

/-- Modelled from the spec: `convert_camel_to_snake` (from
`airflow.utils.helpers`, not part of the sources here) rewrites a
camel-case key to snake-case. -/
def convert_camel_to_snake (s : String) : String :=
  String.mk (snakeChars true s.data)

/-- The dict comprehension
`{convert_camel_to_snake(key): pipeline_options[key] for key in pipeline_options}`:
a fresh dictionary built by inserting the rewritten keys in iteration
order (so on a key collision the last writer wins). -/
def snakeCaseDict (d : Dict) : Dict :=
  d.foldl (fun acc kv => dictSet acc (convert_camel_to_snake kv.1) kv.2) []

/-- The in-place key assignments of
`BeamDataflowMixin.__get_dataflow_pipeline_options` on the deep-copied
options body: the job-name key (when given), service account,
impersonation target, project and region. -/
def injectEngineOptions (supportImpersonation : Bool)
    (cfg : DataflowConfiguration) (d : Dict) (job_name : String)
    (job_name_key : Option String) : Dict :=
  let step1 : Dict :=
    match job_name_key with
    | some k => dictSet d k (PyVal.str job_name)
    | none => d
  let step2 : Dict :=
    if optTruthy cfg.service_account then
      dictSet step1 "serviceAccount" (PyVal.str (cfg.service_account.getD ""))
    else step1
  let step3 : Dict :=
    if supportImpersonation && cfg.impersonation_chain.truthy then
      dictSet step2 "impersonateServiceAccount"
        (PyVal.str cfg.impersonation_chain.joined)
    else step2
  let step4 : Dict := dictSet step3 "project" (optionStrVal cfg.project_id)
  dictSet step4 "region" (optionStrVal cfg.location)

/-- `BeamDataflowMixin.__get_dataflow_pipeline_options`: deep-copy the
options object, apply the engine-key assignments, and merge the
airflow-version label into the nested `labels` mapping in place.
Returns the address of the new options object. -/
def getDataflowPipelineOptions (fuel : Nat) (supportImpersonation : Bool)
    (cfg : DataflowConfiguration) (version : String) (h : Heap) (a : Nat)
    (job_name : String) (job_name_key : Option String) :
    Option (Heap × Nat) :=
  match deepcopyDict fuel h (h.get a) with
  | none => none
  | some (h1, d1) =>
    let h2 := (h1.alloc d1).1
    let b := (h1.alloc d1).2
    let h3 := h2.put b (injectEngineOptions supportImpersonation cfg (h2.get b)
      job_name job_name_key)
    match setdefaultDictUpdate h3 b "labels"
        [("airflow-version", PyVal.str (airflowVersionLabel version))] with
    | none => none
    | some h4 => some (h4, b)

/-- Result of `BeamDataflowMixin._set_dataflow`: the updated heap, the
address of the rewritten options object, the built job name, and the
configuration with `project_id` backfilled from the hook. -/
structure SetDataflowResult where
  heap : Heap
  optsAddr : Nat
  jobName : String
  cfg : DataflowConfiguration
deriving Repr, DecidableEq

/-- `BeamDataflowMixin._set_dataflow`: backfill `project_id` from the
remote hook when falsy, build the Dataflow job name, and rewrite the
pipeline options.  (Hook construction and the process-line callback are
external collaborators.) -/
def setDataflow (fuel : Nat) (supportImpersonation : Bool)
    (cfg : DataflowConfiguration) (hookProjectId : Option String)
    (version suffix : String) (h : Heap) (a : Nat)
    (job_name_key : Option String) : Option SetDataflowResult :=
  let cfg1 := { cfg with
    project_id := if optTruthy cfg.project_id then cfg.project_id else hookProjectId }
  let name := build_dataflow_job_name cfg1.job_name cfg1.append_job_name suffix
  match getDataflowPipelineOptions fuel supportImpersonation cfg1 version h a
      name job_name_key with
  | none => none
  | some (h1, b) => some ⟨h1, b, name, cfg1⟩

/-- The operator state (the `self` fields) that `_init_pipeline_options`
and `execute` read: the runner name, the heap addresses of
`self.default_pipeline_options` and `self.pipeline_options`, the
Dataflow configuration, and the impersonation-support flag (true for the
Python and Java operators, false for Go). -/
structure OperatorState where
  runner : String
  defaultOptsAddr : Nat
  userOptsAddr : Nat
  dataflow_config : DataflowConfiguration
  dataflow_support_impersonation : Bool
deriving Repr, DecidableEq

/-- Result of `BeamBasePipelineOperator._init_pipeline_options`:
`mergedAddr` is the merged options object (before the optional
snake-case rewrite), `resultAddr` the object actually returned
(a fresh snake-cased copy when `format_pipeline_options` is set,
otherwise `mergedAddr` itself); `cfg` is `self.dataflow_config` after
the possible project-id backfill. -/
structure InitResult where
  heap : Heap
  is_dataflow : Bool
  dataflow_job_name : Option String
  mergedAddr : Nat
  resultAddr : Nat
  cfg : DataflowConfiguration
deriving Repr, DecidableEq

/-- `BeamBasePipelineOperator._init_pipeline_options`: shallow-copy the
defaults, on the Dataflow runner rewrite them through `_set_dataflow`,
then apply the user-supplied `self.pipeline_options` key-by-key, and
optionally produce a snake-cased copy. -/
def initPipelineOptions (fuel : Nat) (op : OperatorState)
    (hookProjectId : Option String) (version suffix : String) (h : Heap)
    (format_pipeline_options : Bool) (job_name_variable_key : Option String) :
    Option InitResult :=
  let h1 := (h.alloc (h.get op.defaultOptsAddr)).1
  let a1 := (h.alloc (h.get op.defaultOptsAddr)).2
  let is_dataflow := strLower op.runner == strLower dataflowRunnerName
  let afterDataflow : Option (Heap × Nat × Option String × DataflowConfiguration) :=
    if is_dataflow then
      (setDataflow fuel op.dataflow_support_impersonation op.dataflow_config
          hookProjectId version suffix h1 a1 job_name_variable_key).map
        (fun r => (r.heap, r.optsAddr, some r.jobName, r.cfg))
    else
      some (h1, a1, none, op.dataflow_config)
  match afterDataflow with
  | none => none
  | some (h2, a2, jobName, cfg) =>
    let h3 := h2.put a2 (dictUpdate (h2.get a2) (h2.get op.userOptsAddr))
    if format_pipeline_options then
      let h4 := (h3.alloc (snakeCaseDict (h3.get a2))).1
      let a4 := (h3.alloc (snakeCaseDict (h3.get a2))).2
      some ⟨h4, is_dataflow, jobName, a2, a4, cfg⟩
    else
      some ⟨h3, is_dataflow, jobName, a2, a2, cfg⟩

/-- Result of the constructor fragment modelled by
`ctorPipelineOptions`: the heap after construction and the address bound
to `self.pipeline_options`. -/
structure CtorResult where
  heap : Heap
  selfOptsAddr : Nat
deriving Repr, DecidableEq

/-- The pipeline-options handling of
`BeamRunPythonPipelineOperator.__init__` /
`BeamRunGoPipelineOperator.__init__`:
`self.pipeline_options = pipeline_options or {}` (base constructor),
then `self.pipeline_options.setdefault("labels", {}).update({"airflow-version": ...})`.
`userOpts` is the caller's dictionary object, `none` when the caller
passed `pipeline_options=None`.  Note `pipeline_options or {}` keeps the
caller's object only when it is truthy (non-empty); a falsy argument is
replaced by a fresh dictionary. -/
def ctorPipelineOptions (version : String) (h : Heap) (userOpts : Option Nat) :
    Option CtorResult :=
  let p : Heap × Nat :=
    match userOpts with
    | some u => if dictTruthy (h.get u) then (h, u) else h.alloc []
    | none => h.alloc []
  match setdefaultDictUpdate p.1 p.2 "labels"
      [("airflow-version", PyVal.str (airflowVersionLabel version))] with
  | none => none
  | some h2 => some ⟨h2, p.2⟩

/-- One observable external call made by `execute` / `on_kill`.  A
launch event carries the top-level body of the variables dictionary
passed to the Beam hook. -/
inductive Event where
  | isJobRunningQuery (name : String)
  | startPythonPipeline (vars : Dict)
  | startJavaPipeline (vars : Dict)
  | startGoPipeline (vars : Dict) (shouldInitModule : Bool)
  | waitForDone (jobName : String) (location : Option String)
      (multipleJobs : Bool) (projectId : Option String)
  | cancelJob (jobId : String) (projectId : Option String)
  | persistJobLink (jobId : Option String)
  | gcsDownload (url : String) (intoTmpDir : Bool)
  | createTmpDir
  | removeTmpDir
  | removeDownloadedFile
deriving Repr, DecidableEq

/-- How one `execute` run ends:
`returned id` is the Dataflow-path `return {"dataflow_job_id": id}`;
`completedLocal` is the non-Dataflow path falling off the end;
`raised` propagates an exception (failed launch or failed wait);
`stillBlocked` means the run is inside a blocking remote call whose
answer the oracle does not provide (in particular the un-timed
`WaitForRun` polling loop). -/
inductive Outcome where
  | returned (dataflow_job_id : Option String)
  | completedLocal
  | raised
  | stillBlocked
deriving Repr, DecidableEq

/-- The trace of external calls of one `execute` run, and its outcome. -/
structure RunResult where
  trace : List Event
  outcome : Outcome
deriving Repr, DecidableEq

/-- The `while is_running and check_if_running == CheckJobRunning.WaitForRun`
re-query loop of `BeamRunJavaPipelineOperator.execute`: one query event
per iteration, consuming the remote service's successive answers, until
an answer is `false`.  The second component is the remaining oracle, or
`none` when the answers ran out while the job was still reported
running (the loop is still spinning). -/
def waitForRunLoop (name : String) : List Bool → List Event × Option (List Bool)
  | [] => ([Event.isJobRunningQuery name], none)
  | b :: rest =>
    if b then
      (Event.isJobRunningQuery name :: (waitForRunLoop name rest).1,
       (waitForRunLoop name rest).2)
    else
      ([Event.isJobRunningQuery name], some rest)

/-- The duplicate-check phase of `BeamRunJavaPipelineOperator.execute`
(`is_running` starts false; query once unless the policy is `IgnoreJob`;
under `WaitForRun` keep querying while running).  Returns the query
events and `some is_running` after the phase, or `none` when blocked on
an unanswered query. -/
def javaDuplicateCheck (policy : CheckJobRunning) (name : String)
    (oracle : List Bool) : List Event × Option Bool :=
  if policy = CheckJobRunning.IgnoreJob then
    ([], some false)
  else
    match oracle with
    | [] => ([Event.isJobRunningQuery name], none)
    | b :: rest =>
      if b && (policy = CheckJobRunning.WaitForRun) then
        (Event.isJobRunningQuery name :: (waitForRunLoop name rest).1,
         match (waitForRunLoop name rest).2 with
         | none => none
         | some _ => some false)
      else
        ([Event.isJobRunningQuery name], some b)

/-- `BeamRunJavaPipelineOperator.execute` as a trace-producing function.
`oracle` holds the successive answers of
`DataflowHook.is_job_dataflow_running`; `launchOk` / `waitOk` tell
whether `start_java_pipeline` / `wait_for_done` return without raising;
`observedJobId` is the job id the process-line callback extracts from
the launch output, if any; `suffix` is the random job-name token. -/
def executeJava (fuel : Nat) (op : OperatorState) (jar : String)
    (hookProjectId : Option String) (version suffix : String)
    (oracle : List Bool) (launchOk waitOk : Bool)
    (observedJobId : Option String) (h : Heap) : RunResult :=
  match initPipelineOptions fuel op hookProjectId version suffix h false none with
  | none => { trace := [], outcome := Outcome.raised }
  | some r =>
    let isGcs := strStartsWith (strLower jar) "gs://"
    let dl : List Event := if isGcs then [Event.gcsDownload jar false] else []
    let cleanup : List Event := if isGcs then [Event.removeDownloadedFile] else []
    if r.is_dataflow then
      let qEvents := (javaDuplicateCheck r.cfg.check_if_running r.cfg.job_name oracle).1
      match (javaDuplicateCheck r.cfg.check_if_running r.cfg.job_name oracle).2 with
      | none => { trace := dl ++ qEvents, outcome := Outcome.stillBlocked }
      | some is_running =>
        if is_running then
          { trace := dl ++ qEvents ++ cleanup
            outcome := Outcome.returned none }
        else
          let launchVars : Dict :=
            dictSet (r.heap.get r.mergedAddr) "jobName"
              (PyVal.str (r.dataflow_job_name.getD ""))
          if !launchOk then
            { trace := dl ++ qEvents ++ [Event.startJavaPipeline launchVars] ++ cleanup
              outcome := Outcome.raised }
          else if optTruthy r.dataflow_job_name && optTruthy r.cfg.location then
            if !waitOk then
              { trace := dl ++ qEvents ++ [Event.startJavaPipeline launchVars,
                  Event.persistJobLink observedJobId,
                  Event.waitForDone (r.dataflow_job_name.getD "") r.cfg.location
                    r.cfg.multiple_jobs r.cfg.project_id] ++ cleanup
                outcome := Outcome.raised }
            else
              { trace := dl ++ qEvents ++ [Event.startJavaPipeline launchVars,
                  Event.persistJobLink observedJobId,
                  Event.waitForDone (r.dataflow_job_name.getD "") r.cfg.location
                    r.cfg.multiple_jobs r.cfg.project_id] ++ cleanup
                outcome := Outcome.returned observedJobId }
          else
            { trace := dl ++ qEvents ++ [Event.startJavaPipeline launchVars] ++ cleanup
              outcome := Outcome.returned observedJobId }
    else
      let launchVars := r.heap.get r.resultAddr
      { trace := dl ++ [Event.startJavaPipeline launchVars] ++ cleanup
        outcome := if launchOk then Outcome.completedLocal else Outcome.raised }

/-- `BeamRunPythonPipelineOperator.execute` as a trace-producing
function (no duplicate check; snake-cased options; the job link is
persisted before the conditional wait). -/
def executePython (fuel : Nat) (op : OperatorState) (py_file : String)
    (hookProjectId : Option String) (version suffix : String)
    (launchOk waitOk : Bool) (observedJobId : Option String) (h : Heap) :
    RunResult :=
  match initPipelineOptions fuel op hookProjectId version suffix h true
      (some "job_name") with
  | none => { trace := [], outcome := Outcome.raised }
  | some r =>
    let isGcs := strStartsWith (strLower py_file) "gs://"
    let dl : List Event := if isGcs then [Event.gcsDownload py_file false] else []
    let cleanup : List Event := if isGcs then [Event.removeDownloadedFile] else []
    let launchVars := r.heap.get r.resultAddr
    if r.is_dataflow then
      if !launchOk then
        { trace := dl ++ [Event.startPythonPipeline launchVars] ++ cleanup
          outcome := Outcome.raised }
      else if optTruthy r.dataflow_job_name && optTruthy r.cfg.location then
        if !waitOk then
          { trace := dl ++ [Event.startPythonPipeline launchVars,
              Event.persistJobLink observedJobId,
              Event.waitForDone (r.dataflow_job_name.getD "") r.cfg.location
                false r.cfg.project_id] ++ cleanup
            outcome := Outcome.raised }
        else
          { trace := dl ++ [Event.startPythonPipeline launchVars,
              Event.persistJobLink observedJobId,
              Event.waitForDone (r.dataflow_job_name.getD "") r.cfg.location
                false r.cfg.project_id] ++ cleanup
            outcome := Outcome.returned observedJobId }
      else
        { trace := dl ++ [Event.startPythonPipeline launchVars,
            Event.persistJobLink observedJobId] ++ cleanup
          outcome := Outcome.returned observedJobId }
    else
      { trace := dl ++ [Event.startPythonPipeline launchVars] ++ cleanup
        outcome := if launchOk then Outcome.completedLocal else Outcome.raised }

/-- `BeamRunGoPipelineOperator.execute` as a trace-producing function.
For a `gs://` artifact the temporary directory is created and the file
downloaded into it inside a nested `with tempfile.TemporaryDirectory`
block whose exit — and hence the directory's removal — happens when
that block ends, while the downloaded-file context lives on the
enclosing `ExitStack` and is closed when `execute` unwinds. -/
def executeGo (fuel : Nat) (op : OperatorState) (go_file : String)
    (hookProjectId : Option String) (version suffix : String)
    (launchOk waitOk : Bool) (observedJobId : Option String) (h : Heap) :
    RunResult :=
  match initPipelineOptions fuel op hookProjectId version suffix h true
      (some "job_name") with
  | none => { trace := [], outcome := Outcome.raised }
  | some r =>
    let isGcs := strStartsWith (strLower go_file) "gs://"
    let dl : List Event :=
      if isGcs then
        [Event.createTmpDir, Event.gcsDownload go_file true, Event.removeTmpDir]
      else []
    let cleanup : List Event := if isGcs then [Event.removeDownloadedFile] else []
    let shouldInit := isGcs
    let launchVars := r.heap.get r.resultAddr
    if r.is_dataflow then
      if !launchOk then
        { trace := dl ++ [Event.startGoPipeline launchVars shouldInit] ++ cleanup
          outcome := Outcome.raised }
      else if optTruthy r.dataflow_job_name && optTruthy r.cfg.location then
        if !waitOk then
          { trace := dl ++ [Event.startGoPipeline launchVars shouldInit,
              Event.persistJobLink observedJobId,
              Event.waitForDone (r.dataflow_job_name.getD "") r.cfg.location
                false r.cfg.project_id] ++ cleanup
            outcome := Outcome.raised }
        else
          { trace := dl ++ [Event.startGoPipeline launchVars shouldInit,
              Event.persistJobLink observedJobId,
              Event.waitForDone (r.dataflow_job_name.getD "") r.cfg.location
                false r.cfg.project_id] ++ cleanup
            outcome := Outcome.returned observedJobId }
      else
        { trace := dl ++ [Event.startGoPipeline launchVars shouldInit,
            Event.persistJobLink observedJobId] ++ cleanup
          outcome := Outcome.returned observedJobId }
    else
      { trace := dl ++ [Event.startGoPipeline launchVars shouldInit] ++ cleanup
        outcome := if launchOk then Outcome.completedLocal else Outcome.raised }

/-- `on_kill` (textually identical in the Python, Java and Go
operators): request cancellation only when a Dataflow hook exists and a
job id is known (and truthy); otherwise do nothing. -/
def onKill (hookPresent : Bool) (dataflow_job_id : Option String)
    (projectId : Option String) : List Event :=
  if hookPresent && optTruthy dataflow_job_id then
    [Event.cancelJob (dataflow_job_id.getD "") projectId]
  else []

/-! ### Dictionary lemmas -/

theorem dictGet_dictSet (d : Dict) (k : String) (v : PyVal) (k1 : String) :
    dictGet (dictSet d k v) k1 = if k = k1 then some v else dictGet d k1 := by
  induction d with
  | nil =>
    by_cases hk : k = k1 <;> simp [dictSet, dictGet, hk]
  | cons kv rest ih =>
    obtain ⟨k0, v0⟩ := kv
    by_cases h0 : k0 = k
    · subst h0
      by_cases hk : k0 = k1 <;> simp [dictSet, dictGet, hk]
    · by_cases hk : k0 = k1
      · subst hk
        have hne : ¬ k = k0 := fun h => h0 h.symm
        simp [dictSet, dictGet, h0, hne]
      · simp [dictSet, dictGet, h0, hk, ih]

theorem dictGet_mem {d : Dict} {k : String} {v : PyVal}
    (h : dictGet d k = some v) : (k, v) ∈ d := by
  induction d with
  | nil => simp [dictGet] at h
  | cons kv rest ih =>
    obtain ⟨k0, v0⟩ := kv
    by_cases hk : k0 = k
    · subst hk
      simp [dictGet] at h
      subst h
      exact List.mem_cons_self _ _
    · simp [dictGet, hk] at h
      exact List.mem_cons_of_mem _ (ih h)

theorem dictGet_eq_none_of_not_mem {d : Dict} {k : String}
    (h : k ∉ dictKeys d) : dictGet d k = none := by
  induction d with
  | nil => rfl
  | cons kv rest ih =>
    obtain ⟨k0, v0⟩ := kv
    have hc : dictKeys ((k0, v0) :: rest) = k0 :: dictKeys rest := rfl
    rw [hc, List.mem_cons] at h
    push_neg at h
    have h0 : ¬ k0 = k := fun hh => h.1 hh.symm
    simp [dictGet, h0, ih h.2]

theorem mem_dictKeys_of_dictGet {d : Dict} {k : String} {v : PyVal}
    (h : dictGet d k = some v) : k ∈ dictKeys d := by
  have := dictGet_mem h
  exact List.mem_map_of_mem Prod.fst this

theorem dictGet_dictUpdate_of_none {d src : Dict} {k : String}
    (h : dictGet src k = none) :
    dictGet (dictUpdate d src) k = dictGet d k := by
  induction src generalizing d with
  | nil => rfl
  | cons kv rest ih =>
    obtain ⟨k0, v0⟩ := kv
    by_cases hk : k0 = k
    · simp [dictGet, hk] at h
    · simp [dictGet, hk] at h
      have step : dictUpdate d ((k0, v0) :: rest) = dictUpdate (dictSet d k0 v0) rest := rfl
      rw [step, ih h, dictGet_dictSet]
      simp [hk]

theorem dictGet_dictUpdate_of_some {d src : Dict} {k : String} {v : PyVal}
    (hnd : (dictKeys src).Nodup) (h : dictGet src k = some v) :
    dictGet (dictUpdate d src) k = some v := by
  induction src generalizing d with
  | nil => simp [dictGet] at h
  | cons kv rest ih =>
    obtain ⟨k0, v0⟩ := kv
    have step : dictUpdate d ((k0, v0) :: rest) = dictUpdate (dictSet d k0 v0) rest := rfl
    have hc : dictKeys ((k0, v0) :: rest) = k0 :: dictKeys rest := rfl
    rw [hc] at hnd
    have hnd1 := List.nodup_cons.mp hnd
    by_cases hk : k0 = k
    · subst hk
      simp [dictGet] at h
      subst h
      have hnone : dictGet rest k0 = none := dictGet_eq_none_of_not_mem hnd1.1
      rw [step, dictGet_dictUpdate_of_none hnone, dictGet_dictSet]
      simp
    · simp [dictGet, hk] at h
      rw [step, ih hnd1.2 h]

theorem dictGet_dictSet_ref {d : Dict} {k k1 : String} {v : PyVal} {b : Nat}
    (hv : ∀ a, v ≠ PyVal.ref a)
    (h : dictGet (dictSet d k v) k1 = some (PyVal.ref b)) :
    dictGet d k1 = some (PyVal.ref b) := by
  rw [dictGet_dictSet] at h
  by_cases hk : k = k1
  · simp [hk] at h
    exact (hv b h).elim
  · simpa [hk] using h

theorem optionStrVal_ne_ref (o : Option String) (a : Nat) :
    optionStrVal o ≠ PyVal.ref a := by
  cases o <;> simp [optionStrVal]

/-! ### Snake-case normalization lemmas -/

/-- The value the snake-cased dictionary is expected to hold at key `k`:
the value of the last entry (in iteration order) whose key rewrites to
`k`, if any. -/
def lastSnakeValue (d : Dict) (k : String) : Option PyVal :=
  d.foldl (fun o kv => if convert_camel_to_snake kv.1 = k then some kv.2 else o) none

theorem snakeFold_get (d : Dict) (acc : Dict) (k : String) :
    dictGet (d.foldl (fun a kv => dictSet a (convert_camel_to_snake kv.1) kv.2) acc) k
      = d.foldl (fun o kv => if convert_camel_to_snake kv.1 = k then some kv.2 else o)
          (dictGet acc k) := by
  induction d generalizing acc with
  | nil => rfl
  | cons kv rest ih =>
    obtain ⟨k0, v0⟩ := kv
    show dictGet (rest.foldl _ (dictSet acc (convert_camel_to_snake k0) v0)) k = _
    rw [ih, dictGet_dictSet, List.foldl_cons]

theorem dictGet_snakeCaseDict (d : Dict) (k : String) :
    dictGet (snakeCaseDict d) k = lastSnakeValue d k := by
  have := snakeFold_get d [] k
  simpa [snakeCaseDict, lastSnakeValue, dictGet] using this

theorem lastSnakeValue_fold_some {d : Dict} {k : String} {v : PyVal} (o : Option PyVal)
    (h : d.foldl (fun o kv => if convert_camel_to_snake kv.1 = k then some kv.2 else o) o
      = some v) :
    (∃ k0, (k0, v) ∈ d ∧ convert_camel_to_snake k0 = k) ∨ o = some v := by
  induction d generalizing o with
  | nil => exact Or.inr h
  | cons kv rest ih =>
    obtain ⟨k0, v0⟩ := kv
    rcases ih _ h with hin | hcase
    · obtain ⟨k1, hmem, hconv⟩ := hin
      exact Or.inl ⟨k1, List.mem_cons_of_mem _ hmem, hconv⟩
    · by_cases hk : convert_camel_to_snake k0 = k
      · simp [hk] at hcase
        exact Or.inl ⟨k0, by simp [hcase], hk⟩
      · simp [hk] at hcase
        exact Or.inr hcase

/-- A value in the snake-cased dictionary is a value of the original
dictionary, bound there to a key that rewrites to the looked-up key. -/
theorem snakeCaseDict_value_from {d : Dict} {k : String} {v : PyVal}
    (h : dictGet (snakeCaseDict d) k = some v) :
    ∃ k0, (k0, v) ∈ d ∧ convert_camel_to_snake k0 = k := by
  rw [dictGet_snakeCaseDict] at h
  rcases lastSnakeValue_fold_some none h with hin | hcase
  · exact hin
  · cases hcase

theorem lastSnakeValue_fold_isSome (d : Dict) (k : String) (o : Option PyVal) :
    (d.foldl (fun o kv => if convert_camel_to_snake kv.1 = k then some kv.2 else o)
        o).isSome = true
      ↔ (∃ kv, kv ∈ d ∧ convert_camel_to_snake kv.1 = k) ∨ o.isSome = true := by
  induction d generalizing o with
  | nil => simp
  | cons kv rest ih =>
    obtain ⟨k0, v0⟩ := kv
    rw [List.foldl_cons, ih]
    by_cases hk : convert_camel_to_snake k0 = k
    · constructor
      · intro _
        exact Or.inl ⟨(k0, v0), List.mem_cons_self _ _, hk⟩
      · intro _
        simp [hk]
    · constructor
      · rintro (⟨kv1, hkv, hc⟩ | ho)
        · exact Or.inl ⟨kv1, List.mem_cons_of_mem _ hkv, hc⟩
        · simp [hk] at ho
          exact Or.inr ho
      · rintro (⟨kv1, hkv, hc⟩ | ho)
        · rcases List.mem_cons.mp hkv with heq | hkv2
          · rw [heq] at hc
            exact absurd hc hk
          · exact Or.inl ⟨kv1, hkv2, hc⟩
        · simp [hk]
          exact Or.inr ho

theorem mem_dictKeys_iff {d : Dict} {k : String} :
    k ∈ dictKeys d ↔ ∃ v, dictGet d k = some v := by
  induction d with
  | nil => simp [dictKeys, dictGet]
  | cons kv rest ih =>
    obtain ⟨k0, v0⟩ := kv
    have hc : dictKeys ((k0, v0) :: rest) = k0 :: dictKeys rest := rfl
    rw [hc, List.mem_cons]
    by_cases hk : k0 = k
    · subst hk
      simp [dictGet]
    · have hk2 : ¬ k = k0 := fun h => hk h.symm
      simp [dictGet, hk, hk2, ih]

/-- Key membership in the snake-cased dictionary: exactly the rewritten
keys of the original. -/
theorem mem_dictKeys_snakeCaseDict (d : Dict) (k : String) :
    k ∈ dictKeys (snakeCaseDict d)
      ↔ ∃ kv, kv ∈ d ∧ convert_camel_to_snake kv.1 = k := by
  constructor
  · intro hmem
    obtain ⟨v, hv⟩ := mem_dictKeys_iff.mp hmem
    obtain ⟨k0, hk0, hc⟩ := snakeCaseDict_value_from hv
    exact ⟨(k0, v), hk0, hc⟩
  · intro hex
    have hs : (lastSnakeValue d k).isSome = true := by
      rw [lastSnakeValue, lastSnakeValue_fold_isSome]
      exact Or.inl hex
    rcases hsv : lastSnakeValue d k with _ | v
    · rw [hsv] at hs
      cases hs
    · exact mem_dictKeys_iff.mpr ⟨v, by rw [dictGet_snakeCaseDict, hsv]⟩

/-! ### Heap lemmas -/

/-- Number of allocated objects. -/
def Heap.size (h : Heap) : Nat := h.objs.length

theorem Heap.get_eq (h : Heap) (a : Nat) : h.get a = (h.objs[a]?).getD [] :=
  List.getD_eq_getElem?_getD _ _ _

/-- `h1` preserves `h0`: every object allocated in `h0` is unchanged in
`h1` (and the heap has not shrunk).  All the operators' heap operations
preserve the input heap's objects except writes through pre-existing
references. -/
def Preserves (h0 h1 : Heap) : Prop :=
  h0.size ≤ h1.size ∧ ∀ a, a < h0.size → h1.objs[a]? = h0.objs[a]?

theorem Preserves.rfl (h : Heap) : Preserves h h :=
  ⟨le_refl _, fun _ _ => Eq.refl _⟩

theorem Preserves.trans {h0 h1 h2 : Heap} (p : Preserves h0 h1)
    (q : Preserves h1 h2) : Preserves h0 h2 :=
  ⟨le_trans p.1 q.1, fun a ha => (q.2 a (lt_of_lt_of_le ha p.1)).trans (p.2 a ha)⟩

theorem Heap.get_of_preserves {h0 h1 : Heap} (p : Preserves h0 h1) {a : Nat}
    (ha : a < h0.size) : h1.get a = h0.get a := by
  rw [Heap.get_eq, Heap.get_eq, p.2 a ha]

theorem alloc_size (h : Heap) (d : Dict) : (h.alloc d).1.size = h.size + 1 := by
  simp [Heap.alloc, Heap.size]

theorem alloc_snd (h : Heap) (d : Dict) : (h.alloc d).2 = h.size := Eq.refl _

theorem preserves_alloc (h : Heap) (d : Dict) : Preserves h (h.alloc d).1 := by
  refine ⟨by rw [alloc_size]; omega, fun a ha => ?_⟩
  exact List.getElem?_append_left ha

theorem alloc_get_new (h : Heap) (d : Dict) :
    (h.alloc d).1.get (h.alloc d).2 = d := by
  rw [Heap.get_eq]
  simp [Heap.alloc]

theorem put_size (h : Heap) (b : Nat) (d : Dict) : (h.put b d).size = h.size := by
  simp [Heap.put, Heap.size]

theorem preserves_put {h0 h1 : Heap} {b : Nat} (hb : h0.size ≤ b)
    (p : Preserves h0 h1) (d : Dict) : Preserves h0 (h1.put b d) := by
  refine ⟨by rw [put_size]; exact p.1, fun a ha => ?_⟩
  have hne : b ≠ a := by omega
  show (h1.objs.set b d)[a]? = _
  rw [List.getElem?_set_ne hne]
  exact p.2 a ha

theorem get_put_self {h : Heap} {b : Nat} (hb : b < h.size) (d : Dict) :
    (h.put b d).get b = d := by
  rw [Heap.get_eq]
  show ((h.objs.set b d)[b]?).getD [] = d
  rw [List.getElem?_set_self hb]
  rfl

theorem get_put_ne {h : Heap} {b a : Nat} (hne : b ≠ a) (d : Dict) :
    (h.put b d).get a = h.get a := by
  rw [Heap.get_eq, Heap.get_eq]
  show ((h.objs.set b d)[a]?).getD [] = _
  rw [List.getElem?_set_ne hne]

/-! ### Frame lemmas: deep copy and option rewriting only touch fresh objects -/

/-- If every successful value copy preserves the heap and yields only
fresh references, so does folding the copy over a dictionary's entries
(references already in the accumulator excepted). -/
theorem deepcopyFold_frame (fuel : Nat)
    (hval : ∀ h v h1 v1, deepcopyVal fuel h v = some (h1, v1) →
      Preserves h h1 ∧ ∀ a, v1 = PyVal.ref a → h.size ≤ a) :
    ∀ (d : Dict) (h : Heap) (acc : Dict) (h1 : Heap) (d1 : Dict),
      d.foldlM (fun acc kv => (deepcopyVal fuel acc.1 kv.2).map
        (fun p => (p.1, acc.2 ++ [(kv.1, p.2)]))) (h, acc) = some (h1, d1) →
      Preserves h h1
      ∧ ∀ k a, (k, PyVal.ref a) ∈ d1 → (k, PyVal.ref a) ∈ acc ∨ h.size ≤ a := by
  intro d
  induction d with
  | nil =>
    intro h acc h1 d1 hf
    simp [List.foldlM] at hf
    obtain ⟨rfl, rfl⟩ := hf
    exact ⟨Preserves.rfl h, fun k a hm => Or.inl hm⟩
  | cons kv rest ih =>
    intro h acc h1 d1 hf
    obtain ⟨k0, v0⟩ := kv
    rw [List.foldlM_cons] at hf
    rcases hv : deepcopyVal fuel h v0 with _ | p
    · rw [hv] at hf
      simp at hf
    · obtain ⟨h2, v2⟩ := p
      rw [hv] at hf
      simp only [Option.map_some, Option.some_bind] at hf
      have h1r := ih h2 (acc ++ [(k0, v2)]) h1 d1 hf
      have hv1 := hval h v0 h2 v2 hv
      refine ⟨hv1.1.trans h1r.1, ?_⟩
      intro k a hm
      rcases h1r.2 k a hm with hin | hge
      · rcases List.mem_append.mp hin with hin1 | hin2
        · exact Or.inl hin1
        · simp at hin2
          exact Or.inr (hv1.2 a hin2.2.symm)
      · exact Or.inr (le_trans hv1.1.1 hge)

/-- A deep copy of a value preserves every pre-existing heap object, and
a reference it produces points at a freshly allocated object. -/
theorem deepcopyVal_frame : ∀ fuel h v h1 v1,
    deepcopyVal fuel h v = some (h1, v1) →
    Preserves h h1 ∧ ∀ a, v1 = PyVal.ref a → h.size ≤ a := by
  intro fuel
  induction fuel with
  | zero =>
    intro h v h1 v1 hv
    simp [deepcopyVal] at hv
  | succ fuel ih =>
    intro h v h1 v1 hv
    cases v with
    | ref b =>
      have hdef : deepcopyVal (fuel + 1) h (PyVal.ref b)
          = (match deepcopyDict fuel h (h.get b) with
             | none => none
             | some (h1, d1) =>
               some ((h1.alloc d1).1, PyVal.ref (h1.alloc d1).2)) := rfl
      rw [hdef] at hv
      rcases hdd : deepcopyDict fuel h (h.get b) with _ | p
      · rw [hdd] at hv
        cases hv
      · obtain ⟨h2, d2⟩ := p
        rw [hdd] at hv
        simp only [Option.some.injEq, Prod.mk.injEq] at hv
        obtain ⟨rfl, rfl⟩ := hv
        have p2 := deepcopyFold_frame fuel ih (h.get b) h [] h2 d2 hdd
        refine ⟨p2.1.trans (preserves_alloc h2 d2), ?_⟩
        intro a ha
        cases ha
        rw [alloc_snd]
        exact p2.1.1
    | str s =>
      simp [deepcopyVal] at hv
      obtain ⟨rfl, rfl⟩ := hv
      exact ⟨Preserves.rfl h, by simp⟩
    | pybool b =>
      simp [deepcopyVal] at hv
      obtain ⟨rfl, rfl⟩ := hv
      exact ⟨Preserves.rfl h, by simp⟩
    | pynone =>
      simp [deepcopyVal] at hv
      obtain ⟨rfl, rfl⟩ := hv
      exact ⟨Preserves.rfl h, by simp⟩
    | strlist xs =>
      simp [deepcopyVal] at hv
      obtain ⟨rfl, rfl⟩ := hv
      exact ⟨Preserves.rfl h, by simp⟩

/-- A deep copy of a dictionary body preserves every pre-existing heap
object, and every reference it produces is fresh. -/
theorem deepcopyDict_frame (fuel : Nat) (h : Heap) (d : Dict) (h1 : Heap)
    (d1 : Dict) (hd : deepcopyDict fuel h d = some (h1, d1)) :
    Preserves h h1 ∧ ∀ k a, (k, PyVal.ref a) ∈ d1 → h.size ≤ a := by
  have hall := deepcopyFold_frame fuel (deepcopyVal_frame fuel) d h [] h1 d1 hd
  exact ⟨hall.1, fun k a hm => (hall.2 k a hm).resolve_left (by simp)⟩

theorem setdefault_size_le {h : Heap} {a : Nat} {k : String} {extra : Dict}
    {h1 : Heap} (hs : setdefaultDictUpdate h a k extra = some h1) :
    h.size ≤ h1.size := by
  unfold setdefaultDictUpdate at hs
  rcases hg : dictGet (h.get a) k with _ | v
  · rw [hg] at hs
    simp only [Option.some.injEq] at hs
    rw [← hs, put_size, put_size, alloc_size]
    omega
  · cases v with
    | ref b =>
      rw [hg] at hs
      simp only [Option.some.injEq] at hs
      rw [← hs, put_size]
    | str s => rw [hg] at hs; cases hs
    | pybool b => rw [hg] at hs; cases hs
    | pynone => rw [hg] at hs; cases hs
    | strlist xs => rw [hg] at hs; cases hs

theorem setdefault_frame {h0 h : Heap} {a : Nat} {k : String} {extra : Dict}
    {h1 : Heap} (p : Preserves h0 h) (ha : h0.size ≤ a)
    (href : ∀ b, dictGet (h.get a) k = some (PyVal.ref b) → h0.size ≤ b)
    (hs : setdefaultDictUpdate h a k extra = some h1) : Preserves h0 h1 := by
  unfold setdefaultDictUpdate at hs
  rcases hg : dictGet (h.get a) k with _ | v
  · rw [hg] at hs
    simp only [Option.some.injEq] at hs
    rw [← hs]
    have hb : h0.size ≤ (h.alloc []).2 := by
      rw [alloc_snd]
      exact le_trans p.1 (le_refl _)
    exact preserves_put hb (preserves_put ha (p.trans (preserves_alloc h [])) _) _
  · cases v with
    | ref b =>
      rw [hg] at hs
      simp only [Option.some.injEq] at hs
      rw [← hs]
      exact preserves_put (href b hg) p _
    | str s => rw [hg] at hs; cases hs
    | pybool b => rw [hg] at hs; cases hs
    | pynone => rw [hg] at hs; cases hs
    | strlist xs => rw [hg] at hs; cases hs

theorem dictGet_ite_dictSet_str_ref {c : Prop} [Decidable c] {d : Dict}
    {k k1 : String} {s : String} {bb : Nat}
    (h : dictGet (if c then dictSet d k (PyVal.str s) else d) k1
      = some (PyVal.ref bb)) :
    dictGet d k1 = some (PyVal.ref bb) := by
  split at h
  · exact dictGet_dictSet_ref (by simp) h
  · exact h

/-- The engine-key assignments store no references, so a reference found
in the rewritten body was already in the input body. -/
theorem injectEngineOptions_ref {si : Bool} {cfg : DataflowConfiguration}
    {d : Dict} {name : String} {key : Option String} {k1 : String} {bb : Nat}
    (hg : dictGet (injectEngineOptions si cfg d name key) k1
      = some (PyVal.ref bb)) :
    dictGet d k1 = some (PyVal.ref bb) := by
  unfold injectEngineOptions at hg
  have h4 := dictGet_dictSet_ref (fun a => optionStrVal_ne_ref _ a)
    (dictGet_dictSet_ref (fun a => optionStrVal_ne_ref _ a) hg)
  have h3 := dictGet_ite_dictSet_str_ref (dictGet_ite_dictSet_str_ref h4)
  cases key with
  | none => exact h3
  | some kk => exact dictGet_dictSet_ref (by simp) h3

theorem getDataflow_frame {fuel : Nat} {si : Bool} {cfg : DataflowConfiguration}
    {ver : String} {h : Heap} {a : Nat} {name : String} {key : Option String}
    {hOut : Heap} {b : Nat}
    (hg : getDataflowPipelineOptions fuel si cfg ver h a name key
      = some (hOut, b)) :
    Preserves h hOut ∧ h.size ≤ b ∧ b < hOut.size := by
  unfold getDataflowPipelineOptions at hg
  rcases hdd : deepcopyDict fuel h (h.get a) with _ | pr
  · rw [hdd] at hg
    cases hg
  · obtain ⟨h1, d1⟩ := pr
    rw [hdd] at hg
    simp only at hg
    have pd := deepcopyDict_frame fuel h (h.get a) h1 d1 hdd
    have hb2 : (h1.alloc d1).2 = h1.size := alloc_snd h1 d1
    have hfresh : ∀ bb, dictGet (((h1.alloc d1).1.put (h1.alloc d1).2
        (injectEngineOptions si cfg ((h1.alloc d1).1.get (h1.alloc d1).2) name key)).get
          (h1.alloc d1).2) "labels" = some (PyVal.ref bb) → h.size ≤ bb := by
      intro bb hlab
      rw [get_put_self (by rw [hb2, alloc_size]; omega)] at hlab
      have hd1 := injectEngineOptions_ref (by
        rw [alloc_get_new] at hlab
        exact hlab)
      exact pd.2 "labels" bb (dictGet_mem hd1)
    rcases hset : setdefaultDictUpdate ((h1.alloc d1).1.put (h1.alloc d1).2
        (injectEngineOptions si cfg ((h1.alloc d1).1.get (h1.alloc d1).2) name key))
        (h1.alloc d1).2 "labels"
        [("airflow-version", PyVal.str (airflowVersionLabel ver))] with _ | h5
    · rw [hset] at hg
      cases hg
    · rw [hset] at hg
      simp only [Option.some.injEq, Prod.mk.injEq] at hg
      obtain ⟨rfl, rfl⟩ := hg
      have hble : h.size ≤ (h1.alloc d1).2 := by
        rw [hb2]
        exact pd.1.1
      have pput : Preserves h ((h1.alloc d1).1.put (h1.alloc d1).2
          (injectEngineOptions si cfg ((h1.alloc d1).1.get (h1.alloc d1).2) name key)) :=
        preserves_put hble (pd.1.trans (preserves_alloc h1 d1)) _
      refine ⟨setdefault_frame pput hble hfresh hset, hble, ?_⟩
      have hlt : (h1.alloc d1).2 < ((h1.alloc d1).1.put (h1.alloc d1).2
          (injectEngineOptions si cfg ((h1.alloc d1).1.get (h1.alloc d1).2) name key)).size := by
        rw [put_size, alloc_size, hb2]
        omega
      exact lt_of_lt_of_le hlt (setdefault_size_le hset)

theorem setDataflow_spec {fuel : Nat} {si : Bool} {cfg : DataflowConfiguration}
    {hookPid : Option String} {ver suffix : String} {h : Heap} {a : Nat}
    {key : Option String} {r : SetDataflowResult}
    (hs : setDataflow fuel si cfg hookPid ver suffix h a key = some r) :
    Preserves h r.heap ∧ h.size ≤ r.optsAddr ∧ r.optsAddr < r.heap.size
      ∧ r.cfg = { cfg with
          project_id := if optTruthy cfg.project_id then cfg.project_id else hookPid }
      ∧ r.jobName = build_dataflow_job_name cfg.job_name cfg.append_job_name suffix := by
  unfold setDataflow at hs
  dsimp only at hs
  rcases hg : getDataflowPipelineOptions fuel si
      { cfg with project_id := if optTruthy cfg.project_id then cfg.project_id else hookPid }
      ver h a (build_dataflow_job_name cfg.job_name cfg.append_job_name suffix) key
    with _ | pr
  · rw [hg] at hs
    cases hs
  · obtain ⟨h1, b⟩ := pr
    rw [hg] at hs
    simp only [Option.some.injEq] at hs
    obtain ⟨p, hble, hblt⟩ := getDataflow_frame hg
    rw [← hs]
    exact ⟨p, hble, hblt, Eq.refl _, Eq.refl _⟩

theorem init_spec {fuel : Nat} {op : OperatorState} {hookPid : Option String}
    {ver suffix : String} {h : Heap} {fmt : Bool} {key : Option String}
    {r : InitResult}
    (hi : initPipelineOptions fuel op hookPid ver suffix h fmt key = some r) :
    Preserves h r.heap
    ∧ h.size ≤ r.mergedAddr ∧ r.mergedAddr < r.heap.size
    ∧ r.is_dataflow = (strLower op.runner == strLower dataflowRunnerName)
    ∧ r.cfg.job_name = op.dataflow_config.job_name
    ∧ r.cfg.check_if_running = op.dataflow_config.check_if_running
    ∧ r.cfg.location = op.dataflow_config.location
    ∧ r.cfg.multiple_jobs = op.dataflow_config.multiple_jobs
    ∧ (op.userOptsAddr < h.size →
        (dictKeys (h.get op.userOptsAddr)).Nodup →
        ∀ k v, dictGet (h.get op.userOptsAddr) k = some v →
          dictGet (r.heap.get r.mergedAddr) k = some v)
    ∧ (fmt = true →
        r.heap.get r.resultAddr = snakeCaseDict (r.heap.get r.mergedAddr)) := by
  have pal : Preserves h (h.alloc (h.get op.defaultOptsAddr)).1 :=
    preserves_alloc h _
  unfold initPipelineOptions at hi
  by_cases hd : (strLower op.runner == strLower dataflowRunnerName) = true
  · simp only [hd, if_true] at hi
    rcases hsd : setDataflow fuel op.dataflow_support_impersonation
        op.dataflow_config hookPid ver suffix (h.alloc (h.get op.defaultOptsAddr)).1
        (h.alloc (h.get op.defaultOptsAddr)).2 key with _ | sr
    · rw [hsd] at hi
      cases hi
    · rw [hsd] at hi
      dsimp only [Option.map] at hi
      obtain ⟨psd, hble, hblt, hcfg, hname⟩ := setDataflow_spec hsd
      have pToSr : Preserves h sr.heap := pal.trans psd
      have hbh : h.size ≤ sr.optsAddr := le_trans pal.1 hble
      have hmerged : ∀ hh : Heap, hh.get sr.optsAddr
            = dictUpdate (sr.heap.get sr.optsAddr) (sr.heap.get op.userOptsAddr) →
          op.userOptsAddr < h.size →
          (dictKeys (h.get op.userOptsAddr)).Nodup →
          ∀ k v, dictGet (h.get op.userOptsAddr) k = some v →
            dictGet (hh.get sr.optsAddr) k = some v := by
        intro hh hv hu hnodup k v hget
        rw [hv]
        have husr : sr.heap.get op.userOptsAddr = h.get op.userOptsAddr :=
          Heap.get_of_preserves pToSr hu
        rw [husr]
        exact dictGet_dictUpdate_of_some hnodup hget
      cases fmt with
      | false =>
        simp only [Bool.false_eq_true, if_false, Option.some.injEq] at hi
        subst hi
        refine ⟨preserves_put hbh pToSr _, hbh, ?_, hd.symm, ?_, ?_, ?_, ?_, ?_, ?_⟩
        · rw [put_size]
          exact hblt
        · rw [hcfg]
        · rw [hcfg]
        · rw [hcfg]
        · rw [hcfg]
        · intro hu hnodup k v hget
          exact hmerged _ (get_put_self hblt _) hu hnodup k v hget
        · intro hff
          cases hff
      | true =>
        simp only [if_true, Option.some.injEq] at hi
        subst hi
        have hgb : ((sr.heap.put sr.optsAddr
              (dictUpdate (sr.heap.get sr.optsAddr) (sr.heap.get op.userOptsAddr))).alloc
                (snakeCaseDict ((sr.heap.put sr.optsAddr
                  (dictUpdate (sr.heap.get sr.optsAddr)
                    (sr.heap.get op.userOptsAddr))).get sr.optsAddr))).1.get sr.optsAddr
            = dictUpdate (sr.heap.get sr.optsAddr) (sr.heap.get op.userOptsAddr) := by
          rw [Heap.get_of_preserves (preserves_alloc _ _) (by rw [put_size]; exact hblt)]
          exact get_put_self hblt _
        refine ⟨(preserves_put hbh pToSr _).trans (preserves_alloc _ _), hbh, ?_,
          hd.symm, ?_, ?_, ?_, ?_, ?_, ?_⟩
        · dsimp only
          rw [alloc_size, put_size]
          omega
        · rw [hcfg]
        · rw [hcfg]
        · rw [hcfg]
        · rw [hcfg]
        · intro hu hnodup k v hget
          exact hmerged _ hgb hu hnodup k v hget
        · intro _
          dsimp only
          rw [alloc_get_new, hgb, get_put_self hblt]
  · rw [Bool.not_eq_true] at hd
    simp only [hd, Bool.false_eq_true, if_false] at hi
    have ha1 : (h.alloc (h.get op.defaultOptsAddr)).2 = h.size :=
      alloc_snd h _
    have ha1lt : (h.alloc (h.get op.defaultOptsAddr)).2
        < (h.alloc (h.get op.defaultOptsAddr)).1.size := by
      rw [ha1, alloc_size]
      omega
    have hbh : h.size ≤ (h.alloc (h.get op.defaultOptsAddr)).2 := by
      rw [ha1]
    have hmerged : ∀ hh : Heap, hh.get (h.alloc (h.get op.defaultOptsAddr)).2
          = dictUpdate ((h.alloc (h.get op.defaultOptsAddr)).1.get
              (h.alloc (h.get op.defaultOptsAddr)).2)
            ((h.alloc (h.get op.defaultOptsAddr)).1.get op.userOptsAddr) →
        op.userOptsAddr < h.size →
        (dictKeys (h.get op.userOptsAddr)).Nodup →
        ∀ k v, dictGet (h.get op.userOptsAddr) k = some v →
          dictGet (hh.get (h.alloc (h.get op.defaultOptsAddr)).2) k = some v := by
      intro hh hv hu hnodup k v hget
      rw [hv, Heap.get_of_preserves pal hu]
      exact dictGet_dictUpdate_of_some hnodup hget
    cases fmt with
    | false =>
      simp only [Bool.false_eq_true, if_false, Option.some.injEq] at hi
      subst hi
      refine ⟨preserves_put hbh pal _, hbh, ?_, hd.symm, Eq.refl _, Eq.refl _,
        Eq.refl _, Eq.refl _, ?_, ?_⟩
      · rw [put_size]
        exact ha1lt
      · intro hu hnodup k v hget
        exact hmerged _ (get_put_self ha1lt _) hu hnodup k v hget
      · intro hff
        cases hff
    | true =>
      simp only [if_true, Option.some.injEq] at hi
      subst hi
      have hgb : (((h.alloc (h.get op.defaultOptsAddr)).1.put
            (h.alloc (h.get op.defaultOptsAddr)).2
            (dictUpdate ((h.alloc (h.get op.defaultOptsAddr)).1.get
                (h.alloc (h.get op.defaultOptsAddr)).2)
              ((h.alloc (h.get op.defaultOptsAddr)).1.get op.userOptsAddr))).alloc
              (snakeCaseDict (((h.alloc (h.get op.defaultOptsAddr)).1.put
                (h.alloc (h.get op.defaultOptsAddr)).2
                (dictUpdate ((h.alloc (h.get op.defaultOptsAddr)).1.get
                    (h.alloc (h.get op.defaultOptsAddr)).2)
                  ((h.alloc (h.get op.defaultOptsAddr)).1.get op.userOptsAddr))).get
                  (h.alloc (h.get op.defaultOptsAddr)).2))).1.get
            (h.alloc (h.get op.defaultOptsAddr)).2
          = dictUpdate ((h.alloc (h.get op.defaultOptsAddr)).1.get
              (h.alloc (h.get op.defaultOptsAddr)).2)
            ((h.alloc (h.get op.defaultOptsAddr)).1.get op.userOptsAddr) := by
        rw [Heap.get_of_preserves (preserves_alloc _ _) (by rw [put_size]; exact ha1lt)]
        exact get_put_self ha1lt _
      refine ⟨(preserves_put hbh pal _).trans (preserves_alloc _ _), hbh, ?_,
        hd.symm, Eq.refl _, Eq.refl _, Eq.refl _, Eq.refl _, ?_, ?_⟩
      · dsimp only
        rw [alloc_size, put_size]
        omega
      · intro hu hnodup k v hget
        exact hmerged _ hgb hu hnodup k v hget
      · intro _
        dsimp only
        rw [alloc_get_new, hgb, get_put_self ha1lt]

/-! ### Trace helpers and query-loop lemmas -/

/-- Is this event a running-job query? -/
def isQueryEvent : Event → Bool
  | Event.isJobRunningQuery _ => true
  | _ => false

/-- Is this event a pipeline launch (any SDK)? -/
def isLaunchEvent : Event → Bool
  | Event.startPythonPipeline _ => true
  | Event.startJavaPipeline _ => true
  | Event.startGoPipeline _ _ => true
  | _ => false

/-- Is this event a `wait_for_done` call? -/
def isWaitEvent : Event → Bool
  | Event.waitForDone _ _ _ _ => true
  | _ => false

/-- Number of running-job queries in a trace. -/
def queryCount (t : List Event) : Nat := (t.filter isQueryEvent).length

theorem waitForRunLoop_mem {name : String} {o : List Bool} {e : Event}
    (he : e ∈ (waitForRunLoop name o).1) : e = Event.isJobRunningQuery name := by
  induction o with
  | nil =>
    simp [waitForRunLoop] at he
    exact he
  | cons b rest ih =>
    by_cases hb : b = true
    · subst hb
      simp [waitForRunLoop] at he
      rcases he with he | he
      · exact he
      · exact ih he
    · rw [Bool.not_eq_true] at hb
      subst hb
      simp [waitForRunLoop] at he
      exact he

theorem javaDuplicateCheck_mem {policy : CheckJobRunning} {name : String}
    {o : List Bool} {e : Event}
    (he : e ∈ (javaDuplicateCheck policy name o).1) :
    e = Event.isJobRunningQuery name := by
  unfold javaDuplicateCheck at he
  split at he
  · simp at he
  · cases o with
    | nil =>
      simp at he
      exact he
    | cons b rest =>
      dsimp only at he
      split at he
      · simp at he
        rcases he with he | he
        · exact he
        · exact waitForRunLoop_mem he
      · simp at he
        exact he

theorem waitForRunLoop_true_false (nm : String) (n : Nat) (rest : List Bool) :
    waitForRunLoop nm (List.replicate n true ++ false :: rest)
      = (List.replicate (n + 1) (Event.isJobRunningQuery nm), some rest) := by
  induction n with
  | zero => simp [waitForRunLoop]
  | succ n ih =>
    rw [List.replicate_succ, List.cons_append]
    show (if true = true then _ else _) = _
    rw [if_pos (Eq.refl _), ih]
    simp [List.replicate_succ]

theorem waitForRunLoop_all_true (nm : String) (n : Nat) :
    waitForRunLoop nm (List.replicate n true)
      = (List.replicate (n + 1) (Event.isJobRunningQuery nm), none) := by
  induction n with
  | zero => simp [waitForRunLoop]
  | succ n ih =>
    rw [List.replicate_succ]
    show (if true = true then _ else _) = _
    rw [if_pos (Eq.refl _), ih]
    simp [List.replicate_succ]

theorem javaDuplicateCheck_Ignore (nm : String) (o : List Bool) :
    javaDuplicateCheck CheckJobRunning.IgnoreJob nm o = ([], some false) := by
  unfold javaDuplicateCheck
  simp

theorem javaDuplicateCheck_WaitForRun_true_false (nm : String) (n : Nat)
    (rest : List Bool) :
    javaDuplicateCheck CheckJobRunning.WaitForRun nm
        (List.replicate n true ++ false :: rest)
      = (List.replicate (n + 1) (Event.isJobRunningQuery nm), some false) := by
  unfold javaDuplicateCheck
  cases n with
  | zero => simp
  | succ n =>
    rw [List.replicate_succ, List.cons_append]
    simp only [reduceCtorEq, if_false]
    rw [waitForRunLoop_true_false nm n rest]
    simp [List.replicate_succ]

theorem javaDuplicateCheck_WaitForRun_all_true (nm : String) (n : Nat) :
    javaDuplicateCheck CheckJobRunning.WaitForRun nm (List.replicate n true)
      = (List.replicate (n + 1) (Event.isJobRunningQuery nm), none) := by
  unfold javaDuplicateCheck
  cases n with
  | zero => simp
  | succ n =>
    rw [List.replicate_succ]
    simp only [reduceCtorEq, if_false]
    rw [waitForRunLoop_all_true nm n]
    simp [List.replicate_succ]

theorem javaDuplicateCheck_Finish_head (nm : String) (b : Bool) (rest : List Bool) :
    javaDuplicateCheck CheckJobRunning.FinishIfRunning nm (b :: rest)
      = ([Event.isJobRunningQuery nm], some b) := by
  unfold javaDuplicateCheck
  simp

/-! ### Claim theorems -/

/-- C3: for the Java operator on the Dataflow path with duplicate policy
`FinishIfRunning`, if the running-job query reports the job as running,
the decision is to skip: no launch call occurs, no wait occurs, exactly
one query is made, and execute returns `{"dataflow_job_id": None}` — a
successful no-op outcome, not an error. -/
theorem beam_C3 {fuel : Nat} {op : OperatorState} {jar : String}
    {hookPid : Option String} {ver suffix : String} {rest : List Bool}
    {lOk wOk : Bool} {oid : Option String} {h : Heap} {r : InitResult}
    (hinit : initPipelineOptions fuel op hookPid ver suffix h false none = some r)
    (hdf : r.is_dataflow = true)
    (hpol : r.cfg.check_if_running = CheckJobRunning.FinishIfRunning) :
    (executeJava fuel op jar hookPid ver suffix (true :: rest) lOk wOk oid h).outcome
        = Outcome.returned none
    ∧ (executeJava fuel op jar hookPid ver suffix (true :: rest) lOk wOk oid
        h).trace.any isLaunchEvent = false
    ∧ (executeJava fuel op jar hookPid ver suffix (true :: rest) lOk wOk oid
        h).trace.any isWaitEvent = false
    ∧ queryCount (executeJava fuel op jar hookPid ver suffix (true :: rest) lOk wOk
        oid h).trace = 1 := by
  unfold executeJava
  rw [hinit]
  dsimp only
  rw [hdf, hpol, javaDuplicateCheck_Finish_head]
  dsimp only
  cases hj : strStartsWith (strLower jar) "gs://" <;>
    simp [hj, queryCount, isQueryEvent, isLaunchEvent, isWaitEvent]

/-- Witness for C3 at a concrete configuration. -/
theorem beam_C3_witness :
    (executeJava 10
        ⟨"DataflowRunner", 1, 0,
          ⟨"etl-job", false, some "proj", some "us-central1", none, Chain.cnone,
            CheckJobRunning.FinishIfRunning, false⟩, true⟩
        "a.jar" none "2.5.0" "x" [true] true true none ⟨[[], []]⟩).outcome
      = Outcome.returned none
    ∧ queryCount (executeJava 10
        ⟨"DataflowRunner", 1, 0,
          ⟨"etl-job", false, some "proj", some "us-central1", none, Chain.cnone,
            CheckJobRunning.FinishIfRunning, false⟩, true⟩
        "a.jar" none "2.5.0" "x" [true] true true none ⟨[[], []]⟩).trace = 1 := by
  have hmain := @beam_C3 10
    ⟨"DataflowRunner", 1, 0,
      ⟨"etl-job", false, some "proj", some "us-central1", none, Chain.cnone,
        CheckJobRunning.FinishIfRunning, false⟩, true⟩
    "a.jar" none "2.5.0" "x" [] true true none ⟨[[], []]⟩
    ⟨⟨[[], [], [],
        [("project", PyVal.str "proj"), ("region", PyVal.str "us-central1"),
          ("labels", PyVal.ref 4)],
        [("airflow-version", PyVal.str "v2-5-0")]]⟩,
      true, some "etl-job", 3, 3,
      ⟨"etl-job", false, some "proj", some "us-central1", none, Chain.cnone,
        CheckJobRunning.FinishIfRunning, false⟩⟩
    (by decide) (Eq.refl _) (Eq.refl _)
  exact ⟨hmain.1, hmain.2.2.2⟩

/-- C5: for the Java operator on the Dataflow path with duplicate policy
`IgnoreJob`, the running-job query is never invoked — zero query calls
appear in the trace, whatever the remote service would have answered —
and the launch always proceeds. -/
theorem beam_C5 {fuel : Nat} {op : OperatorState} {jar : String}
    {hookPid : Option String} {ver suffix : String} {oracle : List Bool}
    {lOk wOk : Bool} {oid : Option String} {h : Heap} {r : InitResult}
    (hinit : initPipelineOptions fuel op hookPid ver suffix h false none = some r)
    (hdf : r.is_dataflow = true)
    (hpol : r.cfg.check_if_running = CheckJobRunning.IgnoreJob) :
    queryCount (executeJava fuel op jar hookPid ver suffix oracle lOk wOk oid
        h).trace = 0
    ∧ (executeJava fuel op jar hookPid ver suffix oracle lOk wOk oid
        h).trace.any isLaunchEvent = true := by
  unfold executeJava
  rw [hinit]
  dsimp only
  rw [hdf, hpol, javaDuplicateCheck_Ignore]
  dsimp only
  cases hj : strStartsWith (strLower jar) "gs://" <;>
    cases lOk <;>
    cases hcond : optTruthy r.dataflow_job_name && optTruthy r.cfg.location <;>
    cases wOk <;>
    simp [hj, hcond, queryCount, isQueryEvent, isLaunchEvent]

/-- Witness for C5 at a concrete configuration (the oracle would report
the job running, but is never consulted). -/
theorem beam_C5_witness :
    queryCount (executeJava 10
        ⟨"DataflowRunner", 1, 0,
          ⟨"etl-job", false, some "proj", some "us-central1", none, Chain.cnone,
            CheckJobRunning.IgnoreJob, false⟩, true⟩
        "a.jar" none "2.5.0" "x" [true, true] true true (some "jid")
        ⟨[[], []]⟩).trace = 0
    ∧ (executeJava 10
        ⟨"DataflowRunner", 1, 0,
          ⟨"etl-job", false, some "proj", some "us-central1", none, Chain.cnone,
            CheckJobRunning.IgnoreJob, false⟩, true⟩
        "a.jar" none "2.5.0" "x" [true, true] true true (some "jid")
        ⟨[[], []]⟩).trace.any isLaunchEvent = true :=
  @beam_C5 10
    ⟨"DataflowRunner", 1, 0,
      ⟨"etl-job", false, some "proj", some "us-central1", none, Chain.cnone,
        CheckJobRunning.IgnoreJob, false⟩, true⟩
    "a.jar" none "2.5.0" "x" [true, true] true true (some "jid") ⟨[[], []]⟩
    ⟨⟨[[], [], [],
        [("project", PyVal.str "proj"), ("region", PyVal.str "us-central1"),
          ("labels", PyVal.ref 4)],
        [("airflow-version", PyVal.str "v2-5-0")]]⟩,
      true, some "etl-job", 3, 3,
      ⟨"etl-job", false, some "proj", some "us-central1", none, Chain.cnone,
        CheckJobRunning.IgnoreJob, false⟩⟩
    (by decide) (Eq.refl _) (Eq.refl _)

/-- C4: for the Java operator on the Dataflow path with duplicate policy
`WaitForRun`, the running-job query is repeated until it reports not
running, and only then does the launch proceed (the query/launch events
of the trace are exactly `n + 1` queries followed by the launch when the
remote answers running `n` times and then not-running); if the remote
never answers not-running, the loop never terminates — the run stays
blocked polling and no launch occurs, for every finite number of
answers. -/
theorem beam_C4 {fuel : Nat} {op : OperatorState} {jar : String}
    {hookPid : Option String} {ver suffix : String} {lOk wOk : Bool}
    {oid : Option String} {h : Heap} {r : InitResult}
    (hinit : initPipelineOptions fuel op hookPid ver suffix h false none = some r)
    (hdf : r.is_dataflow = true)
    (hpol : r.cfg.check_if_running = CheckJobRunning.WaitForRun) :
    (∀ n rest,
      (executeJava fuel op jar hookPid ver suffix
          (List.replicate n true ++ false :: rest) lOk wOk oid h).trace.filter
          (fun e => isQueryEvent e || isLaunchEvent e)
        = List.replicate (n + 1) (Event.isJobRunningQuery r.cfg.job_name)
          ++ [Event.startJavaPipeline (dictSet (r.heap.get r.mergedAddr) "jobName"
                (PyVal.str (r.dataflow_job_name.getD "")))]
      ∧ queryCount (executeJava fuel op jar hookPid ver suffix
          (List.replicate n true ++ false :: rest) lOk wOk oid h).trace = n + 1)
    ∧ (∀ n,
      (executeJava fuel op jar hookPid ver suffix (List.replicate n true)
          lOk wOk oid h).outcome = Outcome.stillBlocked
      ∧ (executeJava fuel op jar hookPid ver suffix (List.replicate n true)
          lOk wOk oid h).trace.any isLaunchEvent = false) := by
  constructor
  · intro n rest
    unfold executeJava
    rw [hinit]
    dsimp only
    rw [hdf, hpol, javaDuplicateCheck_WaitForRun_true_false]
    dsimp only
    cases hj : strStartsWith (strLower jar) "gs://" <;>
      cases lOk <;>
      cases hcond : optTruthy r.dataflow_job_name && optTruthy r.cfg.location <;>
      cases wOk <;>
      simp [hj, hcond, queryCount, isQueryEvent, isLaunchEvent,
        List.filter_replicate]
  · intro n
    unfold executeJava
    rw [hinit]
    dsimp only
    rw [hdf, hpol, javaDuplicateCheck_WaitForRun_all_true]
    dsimp only
    cases hj : strStartsWith (strLower jar) "gs://" <;>
      simp [hj, isLaunchEvent, isQueryEvent]

/-- Witness for C4: the remote answers running once and then
not-running, so exactly one extra poll cycle (two queries) happens
before launch; with only running answers the run stays blocked. -/
theorem beam_C4_witness :
    queryCount (executeJava 10
        ⟨"DataflowRunner", 1, 0,
          ⟨"etl-job", false, some "proj", some "us-central1", none, Chain.cnone,
            CheckJobRunning.WaitForRun, false⟩, true⟩
        "a.jar" none "2.5.0" "x" [true, false] true true none ⟨[[], []]⟩).trace = 2
    ∧ (executeJava 10
        ⟨"DataflowRunner", 1, 0,
          ⟨"etl-job", false, some "proj", some "us-central1", none, Chain.cnone,
            CheckJobRunning.WaitForRun, false⟩, true⟩
        "a.jar" none "2.5.0" "x" [true, true, true] true true none
        ⟨[[], []]⟩).outcome = Outcome.stillBlocked := by
  have hmain := @beam_C4 10
    ⟨"DataflowRunner", 1, 0,
      ⟨"etl-job", false, some "proj", some "us-central1", none, Chain.cnone,
        CheckJobRunning.WaitForRun, false⟩, true⟩
    "a.jar" none "2.5.0" "x" true true none ⟨[[], []]⟩
    ⟨⟨[[], [], [],
        [("project", PyVal.str "proj"), ("region", PyVal.str "us-central1"),
          ("labels", PyVal.ref 4)],
        [("airflow-version", PyVal.str "v2-5-0")]]⟩,
      true, some "etl-job", 3, 3,
      ⟨"etl-job", false, some "proj", some "us-central1", none, Chain.cnone,
        CheckJobRunning.WaitForRun, false⟩⟩
    (by decide) (Eq.refl _) (Eq.refl _)
  exact ⟨(hmain.1 1 []).2, (hmain.2 3).1⟩

theorem javaDuplicateCheck_no_wait (p : CheckJobRunning) (nm : String)
    (o : List Bool) :
    (javaDuplicateCheck p nm o).1.any isWaitEvent = false := by
  rw [List.any_eq_false]
  intro e he
  rw [javaDuplicateCheck_mem he]
  simp [isWaitEvent]

theorem javaDuplicateCheck_no_launch (p : CheckJobRunning) (nm : String)
    (o : List Bool) :
    (javaDuplicateCheck p nm o).1.any isLaunchEvent = false := by
  rw [List.any_eq_false]
  intro e he
  rw [javaDuplicateCheck_mem he]
  simp [isLaunchEvent]

/-- C6: on the Dataflow path, after a successful launch, `wait_for_done`
is invoked if and only if both a (truthy) Dataflow job name and a
location are configured; when either is absent, execute skips the wait
and returns immediately with the discovered job id (fire-and-forget).
Stated for the Java operator (first conjunct) and the Python operator
(second conjunct). -/
theorem beam_C6 :
    (∀ (fuel : Nat) (op : OperatorState) (jar : String) (hookPid : Option String)
        (ver suffix : String) (oracle : List Bool) (wOk : Bool)
        (oid : Option String) (h : Heap) (r : InitResult) (d : Dict),
      initPipelineOptions fuel op hookPid ver suffix h false none = some r →
      r.is_dataflow = true →
      Event.startJavaPipeline d ∈
        (executeJava fuel op jar hookPid ver suffix oracle true wOk oid h).trace →
      (executeJava fuel op jar hookPid ver suffix oracle true wOk oid h).trace.any
          isWaitEvent = (optTruthy r.dataflow_job_name && optTruthy r.cfg.location)
      ∧ ((optTruthy r.dataflow_job_name && optTruthy r.cfg.location) = false →
          (executeJava fuel op jar hookPid ver suffix oracle true wOk oid
            h).outcome = Outcome.returned oid))
    ∧ (∀ (fuel : Nat) (op : OperatorState) (pyf : String) (hookPid : Option String)
        (ver suffix : String) (wOk : Bool) (oid : Option String) (h : Heap)
        (r : InitResult),
      initPipelineOptions fuel op hookPid ver suffix h true (some "job_name")
        = some r →
      r.is_dataflow = true →
      (executePython fuel op pyf hookPid ver suffix true wOk oid h).trace.any
          isWaitEvent = (optTruthy r.dataflow_job_name && optTruthy r.cfg.location)
      ∧ ((optTruthy r.dataflow_job_name && optTruthy r.cfg.location) = false →
          (executePython fuel op pyf hookPid ver suffix true wOk oid h).outcome
            = Outcome.returned oid)) := by
  constructor
  · intro fuel op jar hookPid ver suffix oracle wOk oid h r d hinit hdf hmem
    unfold executeJava at hmem ⊢
    rw [hinit] at hmem ⊢
    dsimp only at hmem ⊢
    rw [hdf] at hmem ⊢
    rcases hq : (javaDuplicateCheck r.cfg.check_if_running r.cfg.job_name oracle).2
      with _ | ir
    · rw [hq] at hmem
      dsimp only at hmem
      exfalso
      rcases List.mem_append.mp hmem with hm | hm
      · cases hj : strStartsWith (strLower jar) "gs://" <;> rw [hj] at hm <;>
          simp at hm
      · cases javaDuplicateCheck_mem hm
    · rw [hq] at hmem
      cases ir with
      | true =>
        exfalso
        dsimp only at hmem
        rcases List.mem_append.mp hmem with hm | hm
        · rcases List.mem_append.mp hm with hm1 | hm2
          · cases hj : strStartsWith (strLower jar) "gs://" <;> rw [hj] at hm1 <;>
              simp at hm1
          · cases javaDuplicateCheck_mem hm2
        · cases hj : strStartsWith (strLower jar) "gs://" <;> rw [hj] at hm <;>
            simp at hm
      | false =>
        cases hcond : optTruthy r.dataflow_job_name && optTruthy r.cfg.location <;>
          cases wOk <;>
          cases hj : strStartsWith (strLower jar) "gs://" <;>
          simp [hj, hcond, isWaitEvent, javaDuplicateCheck_no_wait]
  · intro fuel op pyf hookPid ver suffix wOk oid h r hinit hdf
    unfold executePython
    rw [hinit]
    dsimp only
    rw [hdf]
    cases hcond : optTruthy r.dataflow_job_name && optTruthy r.cfg.location <;>
      cases wOk <;>
      cases hj : strStartsWith (strLower pyf) "gs://" <;>
      simp [hj, hcond, isWaitEvent]

/-- Witness for C6: with no location configured, both the Java and the
Python operators skip the wait and return the discovered job id. -/
theorem beam_C6_witness :
    (executeJava 10
        ⟨"DataflowRunner", 1, 0,
          ⟨"etl-job", false, some "proj", none, none, Chain.cnone,
            CheckJobRunning.IgnoreJob, false⟩, true⟩
        "a.jar" none "2.5.0" "x" [] true true (some "jid")
        ⟨[[], []]⟩).trace.any isWaitEvent = false
    ∧ (executeJava 10
        ⟨"DataflowRunner", 1, 0,
          ⟨"etl-job", false, some "proj", none, none, Chain.cnone,
            CheckJobRunning.IgnoreJob, false⟩, true⟩
        "a.jar" none "2.5.0" "x" [] true true (some "jid") ⟨[[], []]⟩).outcome
      = Outcome.returned (some "jid")
    ∧ (executePython 10
        ⟨"DataflowRunner", 1, 0,
          ⟨"etl-job", false, some "proj", none, none, Chain.cnone,
            CheckJobRunning.IgnoreJob, false⟩, true⟩
        "f.py" none "2.5.0" "x" true true (some "jid")
        ⟨[[], []]⟩).trace.any isWaitEvent = false
    ∧ (executePython 10
        ⟨"DataflowRunner", 1, 0,
          ⟨"etl-job", false, some "proj", none, none, Chain.cnone,
            CheckJobRunning.IgnoreJob, false⟩, true⟩
        "f.py" none "2.5.0" "x" true true (some "jid") ⟨[[], []]⟩).outcome
      = Outcome.returned (some "jid") := by
  have h1 := beam_C6.1 10
    ⟨"DataflowRunner", 1, 0,
      ⟨"etl-job", false, some "proj", none, none, Chain.cnone,
        CheckJobRunning.IgnoreJob, false⟩, true⟩
    "a.jar" none "2.5.0" "x" [] true (some "jid") ⟨[[], []]⟩
    ⟨⟨[[], [], [],
        [("project", PyVal.str "proj"), ("region", PyVal.pynone),
          ("labels", PyVal.ref 4)],
        [("airflow-version", PyVal.str "v2-5-0")]]⟩,
      true, some "etl-job", 3, 3,
      ⟨"etl-job", false, some "proj", none, none, Chain.cnone,
        CheckJobRunning.IgnoreJob, false⟩⟩
    [("project", PyVal.str "proj"), ("region", PyVal.pynone),
      ("labels", PyVal.ref 4), ("jobName", PyVal.str "etl-job")]
    (by decide) (Eq.refl _) (by decide)
  have h2 := beam_C6.2 10
    ⟨"DataflowRunner", 1, 0,
      ⟨"etl-job", false, some "proj", none, none, Chain.cnone,
        CheckJobRunning.IgnoreJob, false⟩, true⟩
    "f.py" none "2.5.0" "x" true (some "jid") ⟨[[], []]⟩
    ⟨⟨[[], [], [],
        [("job_name", PyVal.str "etl-job"), ("project", PyVal.str "proj"),
          ("region", PyVal.pynone), ("labels", PyVal.ref 4)],
        [("airflow-version", PyVal.str "v2-5-0")],
        [("job_name", PyVal.str "etl-job"), ("project", PyVal.str "proj"),
          ("region", PyVal.pynone), ("labels", PyVal.ref 4)]]⟩,
      true, some "etl-job", 3, 5,
      ⟨"etl-job", false, some "proj", none, none, Chain.cnone,
        CheckJobRunning.IgnoreJob, false⟩⟩
    (by decide) (Eq.refl _)
  exact ⟨h1.1.trans (by decide), h1.2 (by decide),
    h2.1.trans (by decide), h2.2 (by decide)⟩

/-- The variables dictionaries passed to `start_java_pipeline` in a
trace. -/
def javaLaunchVars (t : List Event) : List Dict :=
  t.filterMap (fun e => match e with
    | Event.startJavaPipeline d => some d
    | _ => none)

/-- C1 counterexample: on the Java Dataflow path, the user-supplied
`pipeline_options` bind `jobName` to `"user-job"`, yet the option set
passed to the launch binds `jobName` to the computed Dataflow job name
`"etl-job"` — the user override does not survive on this path, refuting
the claim for the job-name key. -/
theorem beam_C1_counterexample :
    dictGet (Heap.get ⟨[[("jobName", PyVal.str "user-job")], []]⟩ 0) "jobName"
      = some (PyVal.str "user-job")
    ∧ (javaLaunchVars (executeJava 20
        ⟨"DataflowRunner", 1, 0,
          ⟨"etl-job", false, some "proj", some "us-central1", none, Chain.cnone,
            CheckJobRunning.IgnoreJob, false⟩, true⟩
        "pipeline.jar" none "2.5.0" "x" [] true true (some "jid")
        ⟨[[("jobName", PyVal.str "user-job")], []]⟩).trace).map
          (fun d => dictGet d "jobName")
      = [some (PyVal.str "etl-job")]
    ∧ PyVal.str "etl-job" ≠ PyVal.str "user-job" := by
  refine ⟨Eq.refl _, by decide, by decide⟩

/-- C1 amended: the option merge performed by `_init_pipeline_options`
gives every key present in the user-supplied `pipeline_options` the
user's value in the merged mapping, on every launch path (first
conjunct); however, on the Java Dataflow launch path, `execute`
overwrites the `jobName` key with the computed Dataflow job name after
the merge, so at launch the user's value survives for every key except
`jobName`, which holds the computed name (second conjunct). -/
theorem beam_C1_amended :
    (∀ (fuel : Nat) (op : OperatorState) (hookPid : Option String)
        (ver suffix : String) (h : Heap) (fmt : Bool) (key : Option String)
        (r : InitResult),
      initPipelineOptions fuel op hookPid ver suffix h fmt key = some r →
      op.userOptsAddr < h.size →
      (dictKeys (h.get op.userOptsAddr)).Nodup →
      ∀ k v, dictGet (h.get op.userOptsAddr) k = some v →
        dictGet (r.heap.get r.mergedAddr) k = some v)
    ∧ (∀ (fuel : Nat) (op : OperatorState) (jar : String)
        (hookPid : Option String) (ver suffix : String) (oracle : List Bool)
        (lOk wOk : Bool) (oid : Option String) (h : Heap) (r : InitResult)
        (d : Dict),
      initPipelineOptions fuel op hookPid ver suffix h false none = some r →
      r.is_dataflow = true →
      Event.startJavaPipeline d ∈
        (executeJava fuel op jar hookPid ver suffix oracle lOk wOk oid h).trace →
      dictGet d "jobName" = some (PyVal.str (r.dataflow_job_name.getD ""))
      ∧ ∀ k v, k ≠ "jobName" →
          dictGet (r.heap.get r.mergedAddr) k = some v → dictGet d k = some v) := by
  constructor
  · intro fuel op hookPid ver suffix h fmt key r hinit hu hnodup k v hget
    obtain ⟨_, _, _, _, _, _, _, _, hmerge, _⟩ := init_spec hinit
    exact hmerge hu hnodup k v hget
  · intro fuel op jar hookPid ver suffix oracle lOk wOk oid h r d hinit hdf hmem
    unfold executeJava at hmem
    rw [hinit] at hmem
    dsimp only at hmem
    rw [hdf] at hmem
    rcases hq : (javaDuplicateCheck r.cfg.check_if_running r.cfg.job_name oracle).2
      with _ | ir
    · rw [hq] at hmem
      dsimp only at hmem
      exfalso
      rcases List.mem_append.mp hmem with hm | hm
      · cases hj : strStartsWith (strLower jar) "gs://" <;> rw [hj] at hm <;>
          simp at hm
      · cases javaDuplicateCheck_mem hm
    · rw [hq] at hmem
      cases ir with
      | true =>
        exfalso
        dsimp only at hmem
        rcases List.mem_append.mp hmem with hm | hm
        · rcases List.mem_append.mp hm with hm1 | hm2
          · cases hj : strStartsWith (strLower jar) "gs://" <;> rw [hj] at hm1 <;>
              simp at hm1
          · cases javaDuplicateCheck_mem hm2
        · cases hj : strStartsWith (strLower jar) "gs://" <;> rw [hj] at hm <;>
            simp at hm
      | false =>
        cases lOk <;>
          cases hcond : optTruthy r.dataflow_job_name && optTruthy r.cfg.location <;>
          cases wOk <;>
          cases hj : strStartsWith (strLower jar) "gs://" <;>
          simp [hj, hcond] at hmem <;>
          rcases hmem with hmem | hmem <;>
          first
            | cases javaDuplicateCheck_mem hmem
            | (subst hmem
               exact ⟨by rw [dictGet_dictSet, if_pos (Eq.refl _)],
                 fun k v hk hv => by
                   rw [dictGet_dictSet, if_neg (fun hh => hk hh.symm)]
                   exact hv⟩)

/-- Witness for the amended C1: at the concrete Java Dataflow run of the
counterexample, the merged mapping still holds the user's `jobName`
value, while the launch variables hold the computed job name, and a
non-jobName key (`project`) reaches the launch unchanged. -/
theorem beam_C1_amended_witness :
    dictGet [("project", PyVal.str "proj"), ("region", PyVal.str "us-central1"),
        ("labels", PyVal.ref 4), ("jobName", PyVal.str "user-job")] "jobName"
      = some (PyVal.str "user-job")
    ∧ dictGet [("project", PyVal.str "proj"), ("region", PyVal.str "us-central1"),
        ("labels", PyVal.ref 4), ("jobName", PyVal.str "etl-job")] "jobName"
      = some (PyVal.str "etl-job")
    ∧ dictGet [("project", PyVal.str "proj"), ("region", PyVal.str "us-central1"),
        ("labels", PyVal.ref 4), ("jobName", PyVal.str "etl-job")] "project"
      = some (PyVal.str "proj") := by
  have h1 := beam_C1_amended.1 20
    ⟨"DataflowRunner", 1, 0,
      ⟨"etl-job", false, some "proj", some "us-central1", none, Chain.cnone,
        CheckJobRunning.IgnoreJob, false⟩, true⟩
    none "2.5.0" "x" ⟨[[("jobName", PyVal.str "user-job")], []]⟩ false none
    ⟨⟨[[("jobName", PyVal.str "user-job")], [], [],
        [("project", PyVal.str "proj"), ("region", PyVal.str "us-central1"),
          ("labels", PyVal.ref 4), ("jobName", PyVal.str "user-job")],
        [("airflow-version", PyVal.str "v2-5-0")]]⟩,
      true, some "etl-job", 3, 3,
      ⟨"etl-job", false, some "proj", some "us-central1", none, Chain.cnone,
        CheckJobRunning.IgnoreJob, false⟩⟩
    (by decide) (by decide) (by decide) "jobName" (PyVal.str "user-job") (by decide)
  have h2 := beam_C1_amended.2 20
    ⟨"DataflowRunner", 1, 0,
      ⟨"etl-job", false, some "proj", some "us-central1", none, Chain.cnone,
        CheckJobRunning.IgnoreJob, false⟩, true⟩
    "pipeline.jar" none "2.5.0" "x" [] true true (some "jid")
    ⟨[[("jobName", PyVal.str "user-job")], []]⟩
    ⟨⟨[[("jobName", PyVal.str "user-job")], [], [],
        [("project", PyVal.str "proj"), ("region", PyVal.str "us-central1"),
          ("labels", PyVal.ref 4), ("jobName", PyVal.str "user-job")],
        [("airflow-version", PyVal.str "v2-5-0")]]⟩,
      true, some "etl-job", 3, 3,
      ⟨"etl-job", false, some "proj", some "us-central1", none, Chain.cnone,
        CheckJobRunning.IgnoreJob, false⟩⟩
    [("project", PyVal.str "proj"), ("region", PyVal.str "us-central1"),
      ("labels", PyVal.ref 4), ("jobName", PyVal.str "etl-job")]
    (by decide) (Eq.refl _) (by decide)
  exact ⟨h1, h2.1, h2.2 "project" (PyVal.str "proj") (by decide) (by decide)⟩

/-- C2 (code bug): for the Go operator with a remote (`gs://`) artifact,
the temporary directory — and with it the downloaded file — is removed
when the inner `with tempfile.TemporaryDirectory` block exits, BEFORE
`start_go_pipeline` runs, on the success path and on the failure path
alike; the claim (and the spec's launch-executor contract) requires the
deletion to happen only after the process under launch exits. -/
theorem beam_C2_code_bug :
    (executeGo 20
        ⟨"DirectRunner", 0, 1,
          ⟨"j", false, none, none, none, Chain.cnone, CheckJobRunning.IgnoreJob,
            false⟩, false⟩
        "gs://bucket/main.go" none "2.5.0" "x" true true none ⟨[[], []]⟩).trace
      = [Event.createTmpDir, Event.gcsDownload "gs://bucket/main.go" true,
          Event.removeTmpDir, Event.startGoPipeline [] true,
          Event.removeDownloadedFile]
    ∧ (executeGo 20
        ⟨"DirectRunner", 0, 1,
          ⟨"j", false, none, none, none, Chain.cnone, CheckJobRunning.IgnoreJob,
            false⟩, false⟩
        "gs://bucket/main.go" none "2.5.0" "x" false true none ⟨[[], []]⟩).trace
      = [Event.createTmpDir, Event.gcsDownload "gs://bucket/main.go" true,
          Event.removeTmpDir, Event.startGoPipeline [] true,
          Event.removeDownloadedFile]
    ∧ (executeGo 20
        ⟨"DirectRunner", 0, 1,
          ⟨"j", false, none, none, none, Chain.cnone, CheckJobRunning.IgnoreJob,
            false⟩, false⟩
        "gs://bucket/main.go" none "2.5.0" "x" false true none ⟨[[], []]⟩).outcome
      = Outcome.raised
    ∧ ((executeGo 20
        ⟨"DirectRunner", 0, 1,
          ⟨"j", false, none, none, none, Chain.cnone, CheckJobRunning.IgnoreJob,
            false⟩, false⟩
        "gs://bucket/main.go" none "2.5.0" "x" true true none
        ⟨[[], []]⟩).trace.findIdx (fun e => e == Event.removeTmpDir))
      < ((executeGo 20
        ⟨"DirectRunner", 0, 1,
          ⟨"j", false, none, none, none, Chain.cnone, CheckJobRunning.IgnoreJob,
            false⟩, false⟩
        "gs://bucket/main.go" none "2.5.0" "x" true true none
        ⟨[[], []]⟩).trace.findIdx isLaunchEvent) := by
  refine ⟨by decide, by decide, by decide, by decide⟩

/-- C7: the key-casing normalization step.  (1) On every formatted
launch path, the returned options object is exactly the snake-cased
rewrite of the merged mapping.  (2) The snake-cased dictionary's value
at a key is the value of the last entry, in mapping iteration order,
whose key rewrites to it (last-writer-wins on collisions).  (3) Every
value in the result appears verbatim in the input, bound to a key that
rewrites to the looked-up key (values are unchanged).  (4) The result's
keys are exactly the rewritten input keys. -/
theorem beam_C7 :
    (∀ (fuel : Nat) (op : OperatorState) (hookPid : Option String)
        (ver suffix : String) (h : Heap) (key : Option String) (r : InitResult),
      initPipelineOptions fuel op hookPid ver suffix h true key = some r →
      r.heap.get r.resultAddr = snakeCaseDict (r.heap.get r.mergedAddr))
    ∧ (∀ d k, dictGet (snakeCaseDict d) k = lastSnakeValue d k)
    ∧ (∀ d k v, dictGet (snakeCaseDict d) k = some v →
        ∃ k0, (k0, v) ∈ d ∧ convert_camel_to_snake k0 = k)
    ∧ (∀ d k, k ∈ dictKeys (snakeCaseDict d)
        ↔ ∃ kv, kv ∈ d ∧ convert_camel_to_snake kv.1 = k) := by
  refine ⟨?_, dictGet_snakeCaseDict, fun d k v => snakeCaseDict_value_from,
    mem_dictKeys_snakeCaseDict⟩
  intro fuel op hookPid ver suffix h key r hinit
  obtain ⟨_, _, _, _, _, _, _, _, _, hfmt⟩ := init_spec hinit
  exact hfmt (Eq.refl _)

/-- Witness for C7: a merged mapping with the colliding keys `fooBar`
and `foo_bar` — the snake-cased result keeps the last writer's value. -/
theorem beam_C7_witness :
    (⟨⟨[[], [("fooBar", PyVal.str "1"), ("foo_bar", PyVal.str "2")],
        [("fooBar", PyVal.str "1"), ("foo_bar", PyVal.str "2")],
        [("foo_bar", PyVal.str "2")]]⟩,
      false, none, 2, 3,
      ⟨"j", false, none, none, none, Chain.cnone, CheckJobRunning.IgnoreJob,
        false⟩⟩ : InitResult).heap.get 3
      = snakeCaseDict [("fooBar", PyVal.str "1"), ("foo_bar", PyVal.str "2")]
    ∧ dictGet (snakeCaseDict
        [("fooBar", PyVal.str "1"), ("foo_bar", PyVal.str "2")]) "foo_bar"
      = lastSnakeValue
          [("fooBar", PyVal.str "1"), ("foo_bar", PyVal.str "2")] "foo_bar" := by
  have h1 := beam_C7.1 20
    ⟨"DirectRunner", 0, 1,
      ⟨"j", false, none, none, none, Chain.cnone, CheckJobRunning.IgnoreJob,
        false⟩, true⟩
    none "2.5.0" "x"
    ⟨[[], [("fooBar", PyVal.str "1"), ("foo_bar", PyVal.str "2")]]⟩
    (some "job_name")
    ⟨⟨[[], [("fooBar", PyVal.str "1"), ("foo_bar", PyVal.str "2")],
        [("fooBar", PyVal.str "1"), ("foo_bar", PyVal.str "2")],
        [("foo_bar", PyVal.str "2")]]⟩,
      false, none, 2, 3,
      ⟨"j", false, none, none, none, Chain.cnone, CheckJobRunning.IgnoreJob,
        false⟩⟩
    (by decide)
  exact ⟨h1, beam_C7.2.1 [("fooBar", PyVal.str "1"), ("foo_bar", PyVal.str "2")]
    "foo_bar"⟩

/-- C8: `on_kill` is a no-op — no cancel call, no error — whenever the
Dataflow hook is absent or no (truthy) job id is known; a cancel call in
its trace implies both were present, and the call names exactly the
known job id and the configured project. -/
theorem beam_C8 :
    ∀ (hk : Bool) (jid : Option String) (pid : Option String),
      ((hk = false ∨ jid = none) → onKill hk jid pid = [])
      ∧ (∀ j p, Event.cancelJob j p ∈ onKill hk jid pid →
          hk = true ∧ jid = some j ∧ pid = p ∧ optTruthy jid = true) := by
  intro hk jid pid
  constructor
  · rintro (rfl | rfl) <;> simp [onKill, optTruthy]
  · intro j p hmem
    unfold onKill at hmem
    by_cases hc : (hk && optTruthy jid) = true
    · rw [if_pos hc] at hmem
      simp at hmem
      obtain ⟨rfl, rfl⟩ := hmem
      rw [Bool.and_eq_true] at hc
      have hk1 := hc.1
      have ht := hc.2
      cases jid with
      | none => simp [optTruthy] at ht
      | some s => exact ⟨hk1, by simp, Eq.refl _, ht⟩
    · rw [if_neg hc] at hmem
      simp at hmem

/-- Witness for C8: with no job id known, `on_kill` performs nothing;
with a hook and a job id, the single cancel call names that id. -/
theorem beam_C8_witness :
    onKill true none (some "proj") = []
    ∧ onKill false (some "jid") (some "proj") = []
    ∧ (true = true ∧ some "jid" = some "jid" ∧ some "proj" = some "proj"
        ∧ optTruthy (some "jid") = true) := by
  refine ⟨(beam_C8 true none (some "proj")).1 (Or.inr (Eq.refl _)),
    (beam_C8 false (some "jid") (some "proj")).1 (Or.inl (Eq.refl _)),
    (beam_C8 true (some "jid") (some "proj")).2 "jid" (some "proj") (by decide)⟩

/-- C9: assembling the pipeline options leaves every dictionary object
that existed before the call — the caller-supplied defaults mapping and
any nested mapping it contains included — unchanged in the heap: the
merge operates on fresh copies only, on every launch path, formatted or
not, Dataflow or local. -/
theorem beam_C9 {fuel : Nat} {op : OperatorState} {hookPid : Option String}
    {ver suffix : String} {h : Heap} {fmt : Bool} {key : Option String}
    {r : InitResult}
    (hinit : initPipelineOptions fuel op hookPid ver suffix h fmt key = some r) :
    ∀ a, a < h.size → r.heap.objs[a]? = h.objs[a]? := by
  intro a ha
  exact (init_spec hinit).1.2 a ha

/-- Witness for C9: a Dataflow-path merge whose defaults contain a
nested `labels` mapping; the defaults object (address 1) and its nested
mapping (address 2) are unchanged, while the airflow-version label went
into a fresh deep copy. -/
theorem beam_C9_witness :
    (⟨⟨[[("foo", PyVal.str "u")],
        [("labels", PyVal.ref 2), ("foo", PyVal.str "d")],
        [("k", PyVal.str "v")],
        [("labels", PyVal.ref 2), ("foo", PyVal.str "d")],
        [("k", PyVal.str "v"), ("airflow-version", PyVal.str "v2-5-0")],
        [("labels", PyVal.ref 4), ("foo", PyVal.str "u"),
          ("project", PyVal.str "proj"), ("region", PyVal.str "us-central1")]]⟩,
      true, some "etl-job", 5, 5,
      ⟨"etl-job", false, some "proj", some "us-central1", none, Chain.cnone,
        CheckJobRunning.IgnoreJob, false⟩⟩ : InitResult).heap.objs[1]?
      = (⟨[[("foo", PyVal.str "u")],
          [("labels", PyVal.ref 2), ("foo", PyVal.str "d")],
          [("k", PyVal.str "v")]]⟩ : Heap).objs[1]?
    ∧ (⟨⟨[[("foo", PyVal.str "u")],
        [("labels", PyVal.ref 2), ("foo", PyVal.str "d")],
        [("k", PyVal.str "v")],
        [("labels", PyVal.ref 2), ("foo", PyVal.str "d")],
        [("k", PyVal.str "v"), ("airflow-version", PyVal.str "v2-5-0")],
        [("labels", PyVal.ref 4), ("foo", PyVal.str "u"),
          ("project", PyVal.str "proj"), ("region", PyVal.str "us-central1")]]⟩,
      true, some "etl-job", 5, 5,
      ⟨"etl-job", false, some "proj", some "us-central1", none, Chain.cnone,
        CheckJobRunning.IgnoreJob, false⟩⟩ : InitResult).heap.objs[2]?
      = (⟨[[("foo", PyVal.str "u")],
          [("labels", PyVal.ref 2), ("foo", PyVal.str "d")],
          [("k", PyVal.str "v")]]⟩ : Heap).objs[2]? := by
  have hmain := @beam_C9 20
    ⟨"DataflowRunner", 1, 0,
      ⟨"etl-job", false, some "proj", some "us-central1", none, Chain.cnone,
        CheckJobRunning.IgnoreJob, false⟩, true⟩
    none "2.5.0" "x"
    ⟨[[("foo", PyVal.str "u")],
      [("labels", PyVal.ref 2), ("foo", PyVal.str "d")],
      [("k", PyVal.str "v")]]⟩ false none
    ⟨⟨[[("foo", PyVal.str "u")],
        [("labels", PyVal.ref 2), ("foo", PyVal.str "d")],
        [("k", PyVal.str "v")],
        [("labels", PyVal.ref 2), ("foo", PyVal.str "d")],
        [("k", PyVal.str "v"), ("airflow-version", PyVal.str "v2-5-0")],
        [("labels", PyVal.ref 4), ("foo", PyVal.str "u"),
          ("project", PyVal.str "proj"), ("region", PyVal.str "us-central1")]]⟩,
      true, some "etl-job", 5, 5,
      ⟨"etl-job", false, some "proj", some "us-central1", none, Chain.cnone,
        CheckJobRunning.IgnoreJob, false⟩⟩
    (by decide)
  exact ⟨hmain 1 (by decide), hmain 2 (by decide)⟩

/-- C10 counterexample: a caller-supplied EMPTY `pipeline_options`
dictionary is falsy, so `pipeline_options or {}` replaces it with a
fresh dictionary — the airflow-version label lands in the fresh object
(address 1, with its labels mapping at address 2) and the caller's own
object (address 0) is left unchanged (still empty), refuting the claim
that construction always mutates the caller's dictionary. -/
theorem beam_C10_counterexample :
    ctorPipelineOptions "2.8.1" ⟨[[]]⟩ (some 0)
      = some ⟨⟨[[], [("labels", PyVal.ref 2)],
          [("airflow-version", PyVal.str "v2-8-1")]]⟩, 1⟩
    ∧ Heap.get ⟨[[]]⟩ 0 = []
    ∧ (1 : Nat) ≠ 0 := by
  refine ⟨by decide, Eq.refl _, by decide⟩

/-- C10 amended: constructing a Python or Go pipeline operator mutates
the caller-supplied `pipeline_options` dictionary in place — binding
`labels` to a mapping that contains the airflow-version label —
whenever the supplied dictionary is truthy (non-empty); the constructor
does not branch on the runner, so this holds for every runner.  (A
supplied empty dictionary is falsy and is replaced by a fresh internal
one, leaving the caller's object untouched.) -/
theorem beam_C10_amended :
    ∀ (ver : String) (h : Heap) (u : Nat) (r : CtorResult),
      dictTruthy (h.get u) = true →
      (∀ b, dictGet (h.get u) "labels" = some (PyVal.ref b) → b < h.size) →
      ctorPipelineOptions ver h (some u) = some r →
      r.selfOptsAddr = u
      ∧ ∀ bb, dictGet (r.heap.get u) "labels" = some (PyVal.ref bb) →
          dictGet (r.heap.get bb) "airflow-version"
            = some (PyVal.str (airflowVersionLabel ver)) := by
  intro ver h u r htr href hc
  have hu : u < h.size := by
    by_contra hge
    rw [Heap.get_eq] at htr
    rw [List.getElem?_eq_none (by unfold Heap.size at hge; omega)] at htr
    simp [dictTruthy] at htr
  unfold ctorPipelineOptions at hc
  dsimp only at hc
  rw [htr, if_pos (Eq.refl true)] at hc
  unfold setdefaultDictUpdate at hc
  rcases hg : dictGet (h.get u) "labels" with _ | v
  · rw [hg] at hc
    dsimp only at hc
    simp only [Option.some.injEq] at hc
    subst hc
    have hb : (h.alloc []).2 = h.size := alloc_snd h []
    have hne : (h.alloc []).2 ≠ u := by omega
    have hu1 : u < (h.alloc []).1.size := by
      rw [alloc_size]
      omega
    have hb1 : (h.alloc []).2 < ((h.alloc []).1.put u
        (dictSet ((h.alloc []).1.get u) "labels" (PyVal.ref (h.alloc []).2))).size := by
      rw [put_size, alloc_size]
      omega
    have hne3 : u ≠ (h.alloc []).2 := by omega
    refine ⟨Eq.refl _, ?_⟩
    intro bb hbb
    dsimp only at hbb ⊢
    rw [get_put_ne hne, get_put_self hu1, dictGet_dictSet,
      if_pos (Eq.refl _)] at hbb
    simp only [Option.some.injEq, PyVal.ref.injEq] at hbb
    subst hbb
    rw [get_put_self hb1]
    have hgetb : ((h.alloc []).1.put u
        (dictSet ((h.alloc []).1.get u) "labels" (PyVal.ref (h.alloc []).2))).get
          (h.alloc []).2 = (h.alloc []).1.get (h.alloc []).2 :=
      get_put_ne hne3 _
    rw [hgetb, alloc_get_new]
    show dictGet (dictSet [] "airflow-version"
      (PyVal.str (airflowVersionLabel ver))) "airflow-version" = _
    rw [dictGet_dictSet, if_pos (Eq.refl _)]
  · cases v with
    | ref b =>
      rw [hg] at hc
      dsimp only at hc
      simp only [Option.some.injEq] at hc
      subst hc
      have hblt : b < h.size := href b hg
      have hXeq : dictUpdate (h.get b)
          [("airflow-version", PyVal.str (airflowVersionLabel ver))]
          = dictSet (h.get b) "airflow-version"
              (PyVal.str (airflowVersionLabel ver)) := Eq.refl _
      refine ⟨Eq.refl _, ?_⟩
      intro bb hbb
      dsimp only at hbb ⊢
      by_cases hbu : b = u
      · subst hbu
        rw [get_put_self hblt, hXeq, dictGet_dictSet, if_neg (by decide),
          hg] at hbb
        simp only [Option.some.injEq, PyVal.ref.injEq] at hbb
        subst hbb
        rw [get_put_self hblt, hXeq, dictGet_dictSet, if_pos (Eq.refl _)]
      · rw [get_put_ne hbu, hg] at hbb
        simp only [Option.some.injEq, PyVal.ref.injEq] at hbb
        subst hbb
        rw [get_put_self hblt, hXeq, dictGet_dictSet, if_pos (Eq.refl _)]
    | str s => rw [hg] at hc; cases hc
    | pybool b => rw [hg] at hc; cases hc
    | pynone => rw [hg] at hc; cases hc
    | strlist xs => rw [hg] at hc; cases hc

/-- Witness for the amended C10: a non-empty caller dictionary keeps its
address (the caller's own object is the one mutated) and afterwards
holds a `labels` mapping containing the airflow-version label. -/
theorem beam_C10_amended_witness :
    ctorPipelineOptions "2.8.1" ⟨[[("foo", PyVal.str "1")]]⟩ (some 0)
      = some ⟨⟨[[("foo", PyVal.str "1"), ("labels", PyVal.ref 1)],
          [("airflow-version", PyVal.str "v2-8-1")]]⟩, 0⟩
    ∧ (⟨⟨[[("foo", PyVal.str "1"), ("labels", PyVal.ref 1)],
          [("airflow-version", PyVal.str "v2-8-1")]]⟩, 0⟩ :
        CtorResult).selfOptsAddr = 0
    ∧ dictGet ((⟨⟨[[("foo", PyVal.str "1"), ("labels", PyVal.ref 1)],
          [("airflow-version", PyVal.str "v2-8-1")]]⟩, 0⟩ :
        CtorResult).heap.get 1) "airflow-version"
      = some (PyVal.str (airflowVersionLabel "2.8.1")) := by
  have hmain := beam_C10_amended "2.8.1" ⟨[[("foo", PyVal.str "1")]]⟩ 0
    ⟨⟨[[("foo", PyVal.str "1"), ("labels", PyVal.ref 1)],
        [("airflow-version", PyVal.str "v2-8-1")]]⟩, 0⟩
    (by decide)
    (by
      intro b hb
      rw [show dictGet (Heap.get ⟨[[("foo", PyVal.str "1")]]⟩ 0) "labels" = none
        from Eq.refl _] at hb
      cases hb)
    (by decide)
  exact ⟨by decide, hmain.1, hmain.2 1 (by decide)⟩

end BeamOp
